import Mathlib

/-!
# fluent-llm-go: memoisation cells, schema builder and prompt façade

A shallow embedding of the Go packages `internal/lazy` and `gemini`.

* Go values that live behind a pointer and are mutated in place (`*Lazy`,
  `*LazyWithError`, `*Schema`, `*Model`, `*PromptBuilder`) are rendered by
  explicit state passing: an operation takes the old state and returns the
  new one next to its result.
* The outside world a producer or a backend call may read and change is an
  arbitrary type `σ`, threaded through every call.
* A Go `panic` is a value of `Panic`; a Go result pair `(T, error)` is
  `T × Option ε` (`none` is the `nil` error).
* Interface values are assumed non-nil and to hold non-nil pointers.
-/

set_option autoImplicit false

namespace FluentLLM

/-! ## Panics -/

/-- The ways in which the embedded code aborts. -/
inductive Panic where
  /-- Call of a `nil` function value (runtime error of Go). -/
  | nilFunc
  /-- Message "buildArg %+v is not a valid Gemini Schema". -/
  | notGeminiSchema
  /-- Message "buildArg %+v is not a valid Gemini BuildOption". -/
  | notGeminiBuildOption
  /-- Message "buildArg of type %s is not supported in Gemini Schema". -/
  | unsupportedBuildArgType (tag : String)
  /-- Message "expected schema of type *Schema, got %T". -/
  | expectedSchemaType
  deriving DecidableEq, Repr

/-! ## Package `internal/lazy` -/

namespace lazy

variable {σ κ ε T : Type}

/-- Modelled from the spec: `sync.OnceValue` belongs to the Go standard
library and is not among the sources.  Section 4.1 describes it: the first
invocation executes the producer and stores the result, all later
invocations return the stored result without re-invoking the producer.  The
state of the closure it returns is the producer `f` and the stored result
(`none` until the first call). The producer is total. -/
structure OnceValue (σ T : Type) where
  f : σ → T × σ
  result : Option T

/-- Modelled from the spec: `sync.OnceValue(value)`, the fresh closure. -/
def OnceValue.new (value : σ → T × σ) : OnceValue σ T :=
  { f := value, result := none }

/-- Modelled from the spec: one call of the closure made by
`sync.OnceValue`, in a sequential execution. -/
def OnceValue.call (o : OnceValue σ T) (w : σ) : T × OnceValue σ T × σ :=
  match o.result with
  | some r => (r, o, w)
  | none =>
    match o.f w with
    | (r, w') => (r, { o with result := some r }, w')

/-- The Go type `Lazy[T]`, a struct with the one field `value func() T`. -/
structure Lazy (σ T : Type) where
  value : OnceValue σ T

/-- The Go function `New`. -/
def New (value : σ → T × σ) : Lazy σ T :=
  { value := OnceValue.new value }

/-- The Go method `(*Lazy[T]).Get`: `return l.value()`. -/
def Lazy.Get (l : Lazy σ T) (w : σ) : T × Lazy σ T × σ :=
  match l.value.call w with
  | (v, o, w') => (v, { value := o }, w')

/-- The Go type `LazyWithError[T]`: `valueFn` may be the `nil` function (as in
the zero value of the struct), `value` is the pointer to the cached value. -/
structure LazyWithError (σ κ ε T : Type) where
  valueFn : Option (κ → σ → (T × Option ε) × σ)
  value : Option T

/-- The zero value of the struct `LazyWithError[T]`. -/
def LazyWithError.zero : LazyWithError σ κ ε T :=
  { valueFn := none, value := none }

/-- The Go function `NewWithError`. -/
def NewWithError (value : κ → σ → (T × Option ε) × σ) : LazyWithError σ κ ε T :=
  { valueFn := some value, value := none }

/-- The Go method `(*LazyWithError[T]).Get`.  `default` is the zero value
`*new(T)`.  The result is the returned pair (or the panic), the cell after the
call and the world after the call. -/
def LazyWithError.Get [Inhabited T] (l : LazyWithError σ κ ε T) (ctx : κ) (w : σ) :
    Except Panic (T × Option ε) × LazyWithError σ κ ε T × σ :=
  match l.value with
  | none =>
    match l.valueFn with
    | none => (.error .nilFunc, l, w)
    | some valueFn =>
      match valueFn ctx w with
      | ((_, some err), w') => (.ok (default, some err), l, w')
      | ((value, none), w') => (.ok (value, none), { l with value := some value }, w')
  | some v => (.ok (v, none), l, w)

/-! ### Drivers: sequences of calls, and producers that count their runs -/

/-- The calls `l.Get()` made `n` times in sequence: the values returned, the
final cell and the final world. -/
def Lazy.getSeq (l : Lazy σ T) (w : σ) : Nat → List T × Lazy σ T × σ
  | 0 => ([], l, w)
  | n + 1 =>
    match l.Get w with
    | (v, l', w') =>
      match Lazy.getSeq l' w' n with
      | (vs, l'', w'') => (v :: vs, l'', w'')

/-- The calls `l.Get(ctx)` made in sequence, one per context of the list. -/
def LazyWithError.getSeq [Inhabited T] (l : LazyWithError σ κ ε T) (w : σ) :
    List κ → List (Except Panic (T × Option ε)) × LazyWithError σ κ ε T × σ
  | [] => ([], l, w)
  | ctx :: ctxs =>
    match l.Get ctx w with
    | (r, l', w') =>
      match LazyWithError.getSeq l' w' ctxs with
      | (rs, l'', w'') => (r :: rs, l'', w'')

/-- A producer instrumented as in `TestNew`: each run adds one to a counter
kept in the world, next to what the producer itself does. -/
def counting (P : σ → T × σ) : Nat × σ → T × (Nat × σ) :=
  fun s => ((P s.2).1, (s.1 + 1, (P s.2).2))

/-- A fallible producer instrumented as in `TestLazyWithError_WhenNoError`. -/
def countingE (P : κ → σ → (T × Option ε) × σ) : κ → Nat × σ → (T × Option ε) × (Nat × σ) :=
  fun ctx s => ((P ctx s.2).1, (s.1 + 1, (P ctx s.2).2))

/-- A sample fallible producer over a world that counts the attempts made so
far: the first attempt fails with the error "boom", every later one succeeds
with "ok". -/
def failOnceThenSucceed : Unit → Nat → (String × Option String) × Nat :=
  fun _ attempts =>
    if attempts = 0 then (("partial", some "boom"), attempts + 1)
    else (("ok", none), attempts + 1)

end lazy

/-! ## Package `fluentllm`: build arguments -/

/-- The Go type `fluentllm.BuildArgType`, a string. -/
abbrev BuildArgType := String

/-- The constant `fluentllm.BuildArgTypeSchema`. -/
def BuildArgTypeSchema : BuildArgType := "schema"

/-- The constant `fluentllm.BuildArgTypeOption`. -/
def BuildArgTypeOption : BuildArgType := "option"

/-! ## Package `gemini`: schema builder -/

namespace gemini

/-- Modelled from the spec: the declaration of `genai.Type` is not among the
sources.  Section 3 gives the kinds: Object, String, Integer and further
ones (extensible); `other` stands for every further value of the Go string
type, its zero value included. -/
inductive Kind where
  | object
  | string
  | integer
  | other (raw : String)
  deriving DecidableEq, Repr

/-- Modelled from the spec: the declaration of `genai.Schema` is not among the
sources.  The fields are the ones this repository assigns: `Type`, `Title`,
`Description`, `Properties` (a Go map from child name to child schema, here an
association list with distinct keys in insertion order, the `nil` map being
the empty list) and `Required` (a Go slice). -/
structure GenaiSchema where
  type : Kind
  title : String
  description : String
  properties : List (String × GenaiSchema)
  required : List String

/-- The Go map assignment `m[k] = v` on an association list: the value stored
under `k` is replaced, or the entry is added. -/
def mapSet {V : Type} (m : List (String × V)) (k : String) (v : V) : List (String × V) :=
  match m with
  | [] => [(k, v)]
  | (k', v') :: rest => if k' = k then (k, v) :: rest else (k', v') :: mapSet rest k v

/-- The Go map read `m[k]` with its presence flag. -/
def mapGet {V : Type} (m : List (String × V)) (k : String) : Option V :=
  match m with
  | [] => none
  | (k', v') :: rest => if k' = k then some v' else mapGet rest k

/-- The key set of a Go map. -/
def mapKeys {V : Type} (m : List (String × V)) : List String :=
  m.map Prod.fst

/-- The Go type `gemini.Schema`; `schema` is the non-nil pointer every
constructor of the builder installs. -/
structure Schema where
  name : String
  required : Bool
  schema : GenaiSchema

/-- The Go type `descriptionOption`. -/
structure descriptionOption where
  description : String

/-- The Go type `requiredOption`, an empty struct. -/
structure requiredOption where

/-- The dynamic values of the interface `fluentllm.BuildArg` (and of
`fluentllm.Schema`, which has the same method set): the three implementations
of package `gemini`, and `foreign tag` for a value of any other type, whose
`BuildArgType()` answers `tag`. -/
inductive BuildArg where
  | schema (s : Schema)
  | description (d : descriptionOption)
  | required (r : requiredOption)
  | foreign (tag : BuildArgType)

/-- The methods `BuildArgType()` of `*Schema`, `*descriptionOption` and
`*requiredOption`, and the answer of a foreign value. -/
def BuildArg.BuildArgType : BuildArg → BuildArgType
  | .schema _ => BuildArgTypeSchema
  | .description _ => BuildArgTypeOption
  | .required _ => BuildArgTypeOption
  | .foreign tag => tag

/-- The method `(*descriptionOption).apply`. -/
def descriptionOption.apply (d : descriptionOption) (schema : Schema) : Schema :=
  { schema with schema := { schema.schema with description := d.description } }

/-- The method `(*requiredOption).apply`. -/
def requiredOption.apply (_r : requiredOption) (schema : Schema) : Schema :=
  { schema with required := true }

/-- The type assertion `arg.(*Schema)`. -/
def BuildArg.asSchema : BuildArg → Option Schema
  | .schema s => some s
  | _ => none

/-- The type assertion `arg.(schemaBuildOption)`: the `apply` method of the
value when it has one.  Only types of package `gemini` can have the
unexported method. -/
def BuildArg.asSchemaBuildOption : BuildArg → Option (Schema → Schema)
  | .description d => some d.apply
  | .required r => some r.apply
  | _ => none

/-- The method `(*Schema).applyBuildOption`. -/
def Schema.applyBuildOption (s : Schema) (arg : BuildArg) : Except Panic Schema :=
  if arg.BuildArgType = BuildArgTypeOption then
    match arg.asSchemaBuildOption with
    | none => .error .notGeminiBuildOption
    | some apply => .ok (apply s)
  else
    .error (.unsupportedBuildArgType arg.BuildArgType)

/-- The body of the loop of `Object`, for one argument. -/
def objectStep (schema : Schema) (arg : BuildArg) : Except Panic Schema :=
  if arg.BuildArgType = BuildArgTypeSchema then
    match arg.asSchema with
    | none => .error .notGeminiSchema
    | some schemaArg =>
      let schema1 : Schema :=
        { schema with schema :=
            { schema.schema with
              properties := mapSet schema.schema.properties schemaArg.name schemaArg.schema } }
      if schemaArg.required then
        .ok { schema1 with schema :=
                { schema1.schema with required := schema1.schema.required ++ [schemaArg.name] } }
      else
        .ok schema1
  else if arg.BuildArgType = BuildArgTypeOption then
    schema.applyBuildOption arg
  else
    .error (.unsupportedBuildArgType arg.BuildArgType)

/-- A loop `for _, arg := range buildArgs` whose body may panic. -/
def foldArgs (step : Schema → BuildArg → Except Panic Schema) (schema : Schema) :
    List BuildArg → Except Panic Schema
  | [] => .ok schema
  | arg :: rest =>
    match step schema arg with
    | .error p => .error p
    | .ok schema' => foldArgs step schema' rest

/-- The method `(*SchemaBuilder).Object`. -/
def Object (name : String) (buildArgs : List BuildArg) : Except Panic Schema :=
  foldArgs objectStep
    { name := name
      required := false
      schema :=
        { type := .object, title := name, description := "", properties := [], required := [] } }
    buildArgs

/-- The method `(*SchemaBuilder).Str`. -/
def Str (name : String) (buildArgs : List BuildArg) : Except Panic Schema :=
  foldArgs Schema.applyBuildOption
    { name := name
      required := false
      schema :=
        { type := .string, title := name, description := "", properties := [], required := [] } }
    buildArgs

/-- The method `(*SchemaBuilder).Int`; its body does not read `buildArgs`. -/
def Int (name : String) (_buildArgs : List BuildArg) : Schema :=
  { name := name
    required := false
    schema :=
      { type := .integer, title := name, description := "", properties := [], required := [] } }

/-- The method `(*SchemaBuilder).Description`. -/
def Description (description : String) : BuildArg :=
  .description { description := description }

/-- The method `(*SchemaBuilder).Required`. -/
def Required : BuildArg :=
  .required {}

/-! ## Package `gemini`: model, prompt builder, execution -/

section Facade

variable {σ κ ε Client Resp : Type}

/-- The Go type `Credentials`. -/
structure Credentials where
  APIKey : String
  deriving DecidableEq, Repr

/-- Modelled from the spec: the declaration of `genai.ClientConfig` is not
among the sources; the one field this repository sets. -/
structure ClientConfig where
  APIKey : String
  deriving DecidableEq, Repr

/-- Modelled from the spec: the declaration of `genai.GenerateContentConfig`
is not among the sources; the two fields this repository sets, the structured
output configuration of section 4.5.  `ResponseSchema` is a pointer. -/
structure GenerateContentConfig where
  ResponseMIMEType : String
  ResponseSchema : Option GenaiSchema

/-- An error made by `fmt.Errorf(msg + ": %w", cause)`. -/
structure Error (ε : Type) where
  msg : String
  cause : ε

/-- Modelled from the spec: the outbound operations of section 6, which
belong to the package `genai` and are not among the sources:
`genai.NewClient`, `client.Models.GenerateContent` (its third argument is
`genai.Text` of the prompt, here the prompt itself) and the method `Text` of
the raw response.  Each reads and changes the world `σ`. -/
structure Backend (σ κ ε Client Resp : Type) where
  NewClient : κ → ClientConfig → σ → (Client × Option ε) × σ
  GenerateContent :
    Client → κ → String → String → Option GenerateContentConfig → σ → (Resp × Option ε) × σ
  Text : Resp → σ → String × σ

/-- The Go type `Model`.  The producer of the cell `client` is the method
value `m.newClient`, bound to the pointer `m`: it reads `m.credentials` when it
runs, so the world it runs in is the pair of the credentials of the model and
the outside world. -/
structure Model (σ κ ε Client : Type) where
  modelName : String
  credentials : Credentials
  client : lazy.LazyWithError (Credentials × σ) κ (Error ε) Client

/-- The Go type `PromptBuilder`.  Its field `model` is a pointer to the model,
which is passed next to the builder wherever it is read. -/
structure PromptBuilder where
  simplePrompt : String
  schema : Option GenaiSchema

/-- The Go type `GeminiResponse` (its field `model` is a pointer to the
model, as in `PromptBuilder`). -/
structure GeminiResponse (σ Resp : Type) where
  text : lazy.Lazy σ String
  response : Resp

/-- The method `(*Model).newClient`. -/
def Model.newClient [Inhabited Client] (B : Backend σ κ ε Client Resp) :
    κ → Credentials × σ → (Client × Option (Error ε)) × (Credentials × σ) :=
  fun ctx s =>
    match B.NewClient ctx { APIKey := s.1.APIKey } s.2 with
    | ((_, some err), w') =>
      ((default, some { msg := "failed to create genai client", cause := err }), (s.1, w'))
    | ((client, none), w') => ((client, none), (s.1, w'))

/-- The method `(*Model).setCredentials`. -/
def Model.setCredentials [Inhabited Client] (B : Backend σ κ ε Client Resp)
    (m : Model σ κ ε Client) (credentials : Credentials) : Model σ κ ε Client :=
  let m1 : Model σ κ ε Client :=
    if credentials.APIKey ≠ m.credentials.APIKey then
      { m with client := lazy.NewWithError (Model.newClient B) }
    else m
  { m1 with credentials := credentials }

/-- The method `(*Credentials).ApplyToModel`. -/
def Credentials.ApplyToModel [Inhabited Client] (B : Backend σ κ ε Client Resp)
    (c : Credentials) (model : Model σ κ ε Client) : Model σ κ ε Client :=
  model.setCredentials B c

/-- The function `NewModel`; the options are the values of the one
implementation of `ModelOption` in the repository, `*Credentials`. -/
def NewModel [Inhabited Client] (B : Backend σ κ ε Client Resp) (modelName : String)
    (opts : List Credentials) : Model σ κ ε Client :=
  opts.foldl (fun model opt => opt.ApplyToModel B model)
    { modelName := modelName, credentials := { APIKey := "" }, client := lazy.LazyWithError.zero }

/-- The method `(*Model).Prompt`. -/
def Model.Prompt (_m : Model σ κ ε Client) (prompt : String) : PromptBuilder :=
  { simplePrompt := prompt, schema := none }

/-- The method `(*PromptBuilder).WithSchema`: the panic, if any, and the
builder after the call, which is also the value returned. -/
def PromptBuilder.WithSchema (p : PromptBuilder) (schema : BuildArg) :
    Option Panic × PromptBuilder :=
  match schema.asSchema with
  | none => (some .expectedSchemaType, p)
  | some geminiSchema => (none, { p with schema := some geminiSchema.schema })

/-- The method `(*PromptBuilder).Execute`, on the builder `p` and the model
`m` it points to: the pair returned (or the panic), the model after the call
and the world after the call. -/
def PromptBuilder.Execute [Inhabited Client] (B : Backend σ κ ε Client Resp)
    (p : PromptBuilder) (m : Model σ κ ε Client) (ctx : κ) (w : σ) :
    Except Panic (Option (GeminiResponse σ Resp) × Option (Error ε)) × Model σ κ ε Client × σ :=
  match m.client.Get ctx (m.credentials, w) with
  | (.error panic, cell, s) => (.error panic, { m with client := cell, credentials := s.1 }, s.2)
  | (.ok (_, some err), cell, s) =>
    (.ok (none, some err), { m with client := cell, credentials := s.1 }, s.2)
  | (.ok (client, none), cell, s) =>
    let config : Option GenerateContentConfig :=
      match p.schema with
      | none => none
      | some schema =>
        some { ResponseMIMEType := "application/json", ResponseSchema := some schema }
    match B.GenerateContent client ctx m.modelName p.simplePrompt config s.2 with
    | ((_, some err), w') =>
      (.ok (none, some { msg := "failed to generate content", cause := err }),
        { m with client := cell, credentials := s.1 }, w')
    | ((response, none), w') =>
      (.ok (some { response := response, text := lazy.New (B.Text response) }, none),
        { m with client := cell, credentials := s.1 }, w')

/-! ### Drivers: chains of `WithSchema`, and a backend that records its calls -/

/-- The calls `p.WithSchema(s)` chained over a list of arguments, stopping at
the first panic. -/
def PromptBuilder.withSchemas (p : PromptBuilder) : List BuildArg → Option Panic × PromptBuilder
  | [] => (none, p)
  | s :: rest =>
    match p.WithSchema s with
    | (some panic, p') => (some panic, p')
    | (none, p') => PromptBuilder.withSchemas p' rest

/-- One call received by the backend, with its arguments. -/
inductive Call (κ Client : Type) where
  | NewClient (ctx : κ) (cfg : ClientConfig)
  | GenerateContent (client : Client) (ctx : κ) (model : String) (contents : String)
      (config : Option GenerateContentConfig)

/-- The backend `B` instrumented to append every call of `NewClient` and
`GenerateContent` to a log kept in the world. -/
def recording (B : Backend σ κ ε Client Resp) :
    Backend (List (Call κ Client) × σ) κ ε Client Resp where
  NewClient := fun ctx cfg s =>
    ((B.NewClient ctx cfg s.2).1, (s.1 ++ [Call.NewClient ctx cfg], (B.NewClient ctx cfg s.2).2))
  GenerateContent := fun client ctx model contents config s =>
    ((B.GenerateContent client ctx model contents config s.2).1,
      (s.1 ++ [Call.GenerateContent client ctx model contents config],
        (B.GenerateContent client ctx model contents config s.2).2))
  Text := fun r s => ((B.Text r s.2).1, (s.1, (B.Text r s.2).2))

end Facade

/-- A sample backend over a trivial world: clients and responses are numbers
and texts, the connection succeeds with client 7 unless the API key is empty,
and generation answers with the prompt. -/
def sampleBackend : Backend Unit Unit String Nat String where
  NewClient := fun _ cfg w => if cfg.APIKey = "" then ((0, some "no key"), w) else ((7, none), w)
  GenerateContent := fun _ _ _ contents _ w => ((contents, none), w)
  Text := fun r w => (r, w)

/-- A sample model, made as in the tests of the repository, over the
recording sample backend. -/
def sampleModel : Model (List (Call Unit Nat) × Unit) Unit String Nat :=
  NewModel (recording sampleBackend) "gemini-1.5-flash" [{ APIKey := "key" }]

/-- A sample model whose producer is installed by a first credentials option
and whose stored API key is the empty one of the second, so that the sample
backend refuses the connection. -/
def sampleModelEmptyKey : Model (List (Call Unit Nat) × Unit) Unit String Nat :=
  NewModel (recording sampleBackend) "gemini-1.5-flash" [{ APIKey := "key" }, { APIKey := "" }]

/-- The method `(*SchemaBuilder).FromJSONSchema`.  The parameter `unmarshal`
stands for `json.Unmarshal` into a fresh `genai.Schema` variable (standard
library, not among the sources): it gives the value left in the variable and
the error. -/
def FromJSONSchema {β ε : Type} (unmarshal : β → GenaiSchema × Option ε) (jsonSchema : β) :
    Option Schema × Option (Error ε) :=
  match unmarshal jsonSchema with
  | (_, some err) => (none, some { msg := "failed to unmarshal JSON schema", cause := err })
  | (schema, none) => (some { name := schema.title, required := false, schema := schema }, none)

/-! ### What the spec says of an argument list -/

/-- The arguments the spec calls unacceptable for `Object`: the tag is neither
"schema" nor "option", or it is "schema" on a value that is not this backend's
schema type, or it is "option" on a value that is not one of this backend's
option types. -/
def BuildArg.rejectedByObject (a : BuildArg) : Prop :=
  (a.BuildArgType ≠ BuildArgTypeSchema ∧ a.BuildArgType ≠ BuildArgTypeOption) ∨
  (a.BuildArgType = BuildArgTypeSchema ∧ a.asSchema = none) ∨
  (a.BuildArgType = BuildArgTypeOption ∧ a.asSchemaBuildOption = none)

/-- The names of the schema arguments whose required flag is set, one entry
per argument, in the order of the arguments. -/
def requiredNames (args : List BuildArg) : List String :=
  args.filterMap fun a =>
    match a with
    | .schema c => if c.required then some c.name else none
    | _ => none

/-- The texts of the description arguments, in the order of the arguments. -/
def descriptions (args : List BuildArg) : List String :=
  args.filterMap fun a =>
    match a with
    | .description d => some d.description
    | _ => none

/-- The backend schemas of the schema arguments named `k`, in the order of
the arguments. -/
def childrenNamed (args : List BuildArg) (k : String) : List GenaiSchema :=
  args.filterMap fun a =>
    match a with
    | .schema c => if c.name = k then some c.schema else none
    | _ => none

end gemini

end FluentLLM

/-! # Theorems -/

namespace FluentLLM

namespace lazy

variable {σ κ ε T : Type}

/-! ## The memoised value cell -/

/-- A cell whose result is stored answers every call with that result and
changes neither itself nor the world. -/
theorem Lazy.getSeq_of_result (l : Lazy σ T) (r : T) (h : l.value.result = some r)
    (w : σ) (n : Nat) : l.getSeq w n = (List.replicate n r, l, w) := by
  induction n with
  | zero => rfl
  | succ n ih =>
    have hg : l.Get w = (r, l, w) := by
      simp [Lazy.Get, OnceValue.call, h]
    simp [Lazy.getSeq, hg, ih, List.replicate_succ]

/-- The first call on a fresh cell runs the producer and stores its value. -/
theorem Lazy.Get_New (P : σ → T × σ) (w : σ) :
    (New P).Get w = ((P w).1, { value := { f := P, result := some (P w).1 } }, (P w).2) := by
  simp [Lazy.Get, New, OnceValue.new, OnceValue.call]

/-- Claim C1: for every producer `P` (instrumented with a run counter that
starts at 0) and every `N > 1`, `N` calls of `Get` in sequence on `New(P)`
return `N` times the value `P` produces on the initial world, and leave the
counter at 1 and the world as one run of `P` leaves it. -/
theorem C1_get_runs_producer_once (P : σ → T × σ) (w : σ) (N : Nat) (hN : 1 < N) :
    (New (counting P)).getSeq (0, w) N =
      (List.replicate N (P w).1,
        { value := { f := counting P, result := some (P w).1 } },
        (1, (P w).2)) := by
  obtain ⟨n, rfl⟩ : ∃ n, N = n + 1 := ⟨N - 1, by omega⟩
  have hrest := Lazy.getSeq_of_result
    ({ value := { f := counting P, result := some (P w).1 } } : Lazy (Nat × σ) T)
    (P w).1 rfl (1, (P w).2) n
  simp [Lazy.getSeq, Lazy.Get_New, counting, List.replicate_succ] at hrest ⊢
  simp [hrest]

/-- Witness of C1: the producer of `TestNew`, called three times. -/
theorem C1_get_runs_producer_once_witness :
    1 < 3 ∧
    (New (counting (fun (u : Unit) => ("Hello, World!", u)))).getSeq (0, ()) 3 =
      (["Hello, World!", "Hello, World!", "Hello, World!"],
        { value :=
            { f := counting (fun (u : Unit) => ("Hello, World!", u)),
              result := some "Hello, World!" } },
        (1, ())) :=
  ⟨by decide, C1_get_runs_producer_once (fun (u : Unit) => ("Hello, World!", u)) () 3 (by decide)⟩

/-! ## The memoised fallible cell -/

/-- A cell that holds a value answers every call with it, whatever the
context, and changes neither itself nor the world. -/
theorem LazyWithError.Get_of_value [Inhabited T] (l : LazyWithError σ κ ε T) (v : T)
    (h : l.value = some v) (ctx : κ) (w : σ) : l.Get ctx w = (.ok (v, none), l, w) := by
  simp [LazyWithError.Get, h]

/-- A sequence of calls on a cell that holds a value. -/
theorem LazyWithError.getSeq_of_value [Inhabited T] (l : LazyWithError σ κ ε T) (v : T)
    (h : l.value = some v) (w : σ) (ctxs : List κ) :
    l.getSeq w ctxs = (List.replicate ctxs.length (.ok (v, none)), l, w) := by
  induction ctxs with
  | nil => rfl
  | cons ctx ctxs ih =>
    simp [LazyWithError.getSeq, LazyWithError.Get_of_value l v h, ih, List.replicate_succ]

/-- Claim C2: if the first run of the fallible producer `P` (instrumented with
a run counter that starts at 0) succeeds with `v`, the first `Get` on
`NewWithError(P)` returns `(v, nil)` and stores `v`; every later sequence of
`Get` calls, with any contexts and whatever `P` would do if run again, returns
`(v, nil)` each time, leaves the cell as it is, the world as it is and the
counter at 1. -/
theorem C2_cached_value_is_reused [Inhabited T] (P : κ → σ → (T × Option ε) × σ)
    (ctx0 : κ) (w0 w1 : σ) (v : T) (h : P ctx0 w0 = ((v, none), w1)) (ctxs : List κ) :
    (NewWithError (countingE P)).Get ctx0 (0, w0) =
        (.ok (v, none), { valueFn := some (countingE P), value := some v }, (1, w1)) ∧
    LazyWithError.getSeq
        ({ valueFn := some (countingE P), value := some v } : LazyWithError (Nat × σ) κ ε T)
        (1, w1) ctxs =
      (List.replicate ctxs.length (.ok (v, none)),
        { valueFn := some (countingE P), value := some v }, (1, w1)) := by
  refine ⟨?_, LazyWithError.getSeq_of_value _ v rfl _ _⟩
  simp [LazyWithError.Get, NewWithError, countingE, h]

/-- Witness of C2: the producer of `TestLazyWithError_WhenNoError`, with two
later calls. -/
theorem C2_cached_value_is_reused_witness :
    (fun (_ : Unit) (u : Unit) => ((("Hello, World!", (none : Option String)), u))) () () =
        (("Hello, World!", none), ()) ∧
    ((NewWithError (countingE
          (fun (_ : Unit) (u : Unit) => ((("Hello, World!", (none : Option String)), u))))).Get
        () (0, ()) =
        (.ok ("Hello, World!", none),
          { valueFn := some (countingE
              (fun (_ : Unit) (u : Unit) => ((("Hello, World!", (none : Option String)), u)))),
            value := some "Hello, World!" }, (1, ())) ∧
      LazyWithError.getSeq
          ({ valueFn := some (countingE
              (fun (_ : Unit) (u : Unit) => ((("Hello, World!", (none : Option String)), u)))),
             value := some "Hello, World!" } : LazyWithError (Nat × Unit) Unit String String)
          (1, ()) [(), ()] =
        (List.replicate [(), ()].length (.ok ("Hello, World!", none)),
          { valueFn := some (countingE
              (fun (_ : Unit) (u : Unit) => ((("Hello, World!", (none : Option String)), u)))),
            value := some "Hello, World!" }, (1, ()))) :=
  ⟨rfl, C2_cached_value_is_reused
    (fun (_ : Unit) (u : Unit) => ((("Hello, World!", (none : Option String)), u)))
    () () () "Hello, World!" rfl [(), ()]⟩

/-- Claim C3: if the fallible producer `P` (instrumented with a run counter
that starts at 0) fails with `e` on its first run and succeeds with `v` on its
second, the first `Get` on `NewWithError(P)` returns the zero value of `T`
with the error `e` and leaves the cell as it was, without a value; the second
`Get` runs `P` again (the counter becomes 2), returns `(v, nil)` and leaves
the cell holding `v`. -/
theorem C3_failure_is_not_cached [Inhabited T] (P : κ → σ → (T × Option ε) × σ)
    (ctx1 ctx2 : κ) (w0 w1 w2 : σ) (x v : T) (e : ε)
    (h1 : P ctx1 w0 = ((x, some e), w1)) (h2 : P ctx2 w1 = ((v, none), w2)) :
    (NewWithError (countingE P)).Get ctx1 (0, w0) =
        (.ok (default, some e), NewWithError (countingE P), (1, w1)) ∧
    (NewWithError (countingE P) : LazyWithError (Nat × σ) κ ε T).value = none ∧
    (NewWithError (countingE P)).Get ctx2 (1, w1) =
        (.ok (v, none), { valueFn := some (countingE P), value := some v }, (2, w2)) ∧
    (NewWithError (countingE P)).getSeq (0, w0) [ctx1, ctx2] =
        ([.ok (default, some e), .ok (v, none)],
          { valueFn := some (countingE P), value := some v }, (2, w2)) := by
  have g1 : (NewWithError (countingE P)).Get ctx1 (0, w0) =
      (.ok (default, some e), NewWithError (countingE P), (1, w1)) := by
    simp [LazyWithError.Get, NewWithError, countingE, h1]
  have g2 : (NewWithError (countingE P)).Get ctx2 (1, w1) =
      (.ok (v, none), { valueFn := some (countingE P), value := some v }, (2, w2)) := by
    simp [LazyWithError.Get, NewWithError, countingE, h2]
  refine ⟨g1, rfl, g2, ?_⟩
  simp [LazyWithError.getSeq, g1, g2]

/-- Witness of C3: a producer that fails once and then succeeds. -/
theorem C3_failure_is_not_cached_witness :
    failOnceThenSucceed () 0 = (("partial", some "boom"), 1) ∧
    failOnceThenSucceed () 1 = (("ok", none), 2) ∧
    (NewWithError (countingE failOnceThenSucceed)).Get () (0, 0) =
        (.ok (default, some "boom"), NewWithError (countingE failOnceThenSucceed), (1, 1)) ∧
    (NewWithError (countingE failOnceThenSucceed) :
        LazyWithError (Nat × Nat) Unit String String).value = none ∧
    (NewWithError (countingE failOnceThenSucceed)).Get () (1, 1) =
        (.ok ("ok", none),
          { valueFn := some (countingE failOnceThenSucceed), value := some "ok" }, (2, 2)) ∧
    (NewWithError (countingE failOnceThenSucceed)).getSeq (0, 0) [(), ()] =
        ([.ok (default, some "boom"), .ok ("ok", none)],
          { valueFn := some (countingE failOnceThenSucceed), value := some "ok" }, (2, 2)) :=
  ⟨rfl, rfl,
    C3_failure_is_not_cached failOnceThenSucceed () () 0 1 2 "partial" "ok" "boom" rfl rfl⟩

end lazy

namespace gemini

/-! ## The schema builder -/

/-- The keys of a map after the assignment `m[k] = v`. -/
theorem mem_mapKeys_mapSet {V : Type} (m : List (String × V)) (k : String) (v : V) (x : String) :
    x ∈ mapKeys (mapSet m k v) ↔ x ∈ mapKeys m ∨ x = k := by
  induction m with
  | nil => simp [mapSet, mapKeys]
  | cons e rest ih =>
    obtain ⟨k', v'⟩ := e
    by_cases hk : k' = k
    · subst hk
      simp only [mapSet, mapKeys, if_true, List.map_cons, List.mem_cons]
      tauto
    · simp only [mapKeys] at ih
      simp [mapSet, mapKeys, hk, ih, or_assoc]

/-- The loop body of `Object` on a schema of this backend. -/
theorem objectStep_schema (s c : Schema) :
    objectStep s (.schema c) =
      .ok { s with schema :=
              { s.schema with
                properties := mapSet s.schema.properties c.name c.schema
                required :=
                  if c.required then s.schema.required ++ [c.name] else s.schema.required } } := by
  cases hc : c.required <;>
    simp [objectStep, BuildArg.BuildArgType, BuildArg.asSchema, hc]

/-- The loop body of `Object` on a description option. -/
theorem objectStep_description (s : Schema) (d : descriptionOption) :
    objectStep s (.description d) = .ok (d.apply s) := by
  simp [objectStep, Schema.applyBuildOption, BuildArg.BuildArgType, BuildArg.asSchemaBuildOption,
    BuildArgTypeOption, BuildArgTypeSchema]

/-- The loop body of `Object` on a required option. -/
theorem objectStep_required (s : Schema) (r : requiredOption) :
    objectStep s (.required r) = .ok (r.apply s) := by
  simp [objectStep, Schema.applyBuildOption, BuildArg.BuildArgType, BuildArg.asSchemaBuildOption,
    BuildArgTypeOption, BuildArgTypeSchema]

/-- The loop body of `Object` panics on a value of a foreign type. -/
theorem objectStep_foreign (s : Schema) (tag : BuildArgType) :
    ∃ p, objectStep s (.foreign tag) = .error p := by
  by_cases h1 : tag = BuildArgTypeSchema
  · exact ⟨.notGeminiSchema, by simp [objectStep, BuildArg.BuildArgType, BuildArg.asSchema, h1]⟩
  · by_cases h2 : tag = BuildArgTypeOption
    · subst h2
      exact ⟨.notGeminiBuildOption, by
        simp [objectStep, Schema.applyBuildOption, BuildArg.BuildArgType,
          BuildArg.asSchemaBuildOption, BuildArgTypeOption, BuildArgTypeSchema]⟩
    · exact ⟨.unsupportedBuildArgType tag, by
        simp [objectStep, BuildArg.BuildArgType, h1, h2]⟩

/-- What the loop of `Object` has done to the schema under construction when
it ends without a panic: kind and name are kept, the keys of the child mapping
are the old ones and the names of the schema arguments, the required names are
the old ones and the names of the schema arguments marked required. -/
theorem foldArgs_objectStep_ok (args : List BuildArg) :
    ∀ s0 s : Schema, foldArgs objectStep s0 args = .ok s →
      s.schema.type = s0.schema.type ∧ s.name = s0.name ∧
      (∀ k, k ∈ mapKeys s.schema.properties ↔
        k ∈ mapKeys s0.schema.properties ∨ ∃ c, BuildArg.schema c ∈ args ∧ c.name = k) ∧
      (∀ k, k ∈ s.schema.required ↔
        k ∈ s0.schema.required ∨
          ∃ c, BuildArg.schema c ∈ args ∧ c.name = k ∧ c.required = true) := by
  induction args with
  | nil =>
    intro s0 s h
    simp only [foldArgs, Except.ok.injEq] at h
    subst h
    simp
  | cons arg rest ih =>
    intro s0 s h
    cases arg with
    | schema c =>
      simp only [foldArgs, objectStep_schema] at h
      obtain ⟨ht, hn, hk, hr⟩ := ih _ s h
      refine ⟨ht, hn, ?_, ?_⟩
      · intro k
        rw [hk k]
        simp only [mem_mapKeys_mapSet, List.mem_cons, BuildArg.schema.injEq]
        constructor
        · rintro ((h1 | h1) | ⟨c', h1, h2⟩)
          · exact Or.inl h1
          · exact Or.inr ⟨c, Or.inl rfl, h1.symm⟩
          · exact Or.inr ⟨c', Or.inr h1, h2⟩
        · rintro (h1 | ⟨c', (h1 | h1), h2⟩)
          · exact Or.inl (Or.inl h1)
          · subst h1
            exact Or.inl (Or.inr h2.symm)
          · exact Or.inr ⟨c', h1, h2⟩
      · intro k
        rw [hr k]
        simp only [List.mem_cons, BuildArg.schema.injEq]
        cases hc : c.required
        · simp only [Bool.false_eq_true, if_false]
          constructor
          · rintro (h1 | ⟨c', h1, h2, h3⟩)
            · exact Or.inl h1
            · exact Or.inr ⟨c', Or.inr h1, h2, h3⟩
          · rintro (h1 | ⟨c', (h1 | h1), h2, h3⟩)
            · exact Or.inl h1
            · subst h1
              rw [hc] at h3
              exact absurd h3 (by decide)
            · exact Or.inr ⟨c', h1, h2, h3⟩
        · simp only [if_true, List.mem_append, List.mem_singleton]
          constructor
          · rintro ((h1 | h1) | ⟨c', h1, h2, h3⟩)
            · exact Or.inl h1
            · exact Or.inr ⟨c, Or.inl rfl, h1.symm, hc⟩
            · exact Or.inr ⟨c', Or.inr h1, h2, h3⟩
          · rintro (h1 | ⟨c', (h1 | h1), h2, h3⟩)
            · exact Or.inl (Or.inl h1)
            · subst h1
              exact Or.inl (Or.inr h2.symm)
            · exact Or.inr ⟨c', h1, h2, h3⟩
    | description d =>
      simp only [foldArgs, objectStep_description] at h
      obtain ⟨ht, hn, hk, hr⟩ := ih _ s h
      refine ⟨ht, hn, ?_, ?_⟩
      · intro k
        rw [hk k]
        simp [descriptionOption.apply]
      · intro k
        rw [hr k]
        simp [descriptionOption.apply]
    | required r =>
      simp only [foldArgs, objectStep_required] at h
      obtain ⟨ht, hn, hk, hr⟩ := ih _ s h
      refine ⟨ht, hn, ?_, ?_⟩
      · intro k
        rw [hk k]
        simp [requiredOption.apply]
      · intro k
        rw [hr k]
        simp [requiredOption.apply]
    | foreign tag =>
      obtain ⟨p, hp⟩ := objectStep_foreign s0 tag
      simp [foldArgs, hp] at h

/-- Claim C4: whenever `Object(name, args...)` returns a schema, that schema
has kind Object, the keys of its child mapping are exactly the names of the
schema arguments, and a name is in its `Required` list exactly when some
schema argument of that name has its required flag set.  In particular
`Object("o", Str("s", Required()), Int("n"))` has the two children "s" and "n",
with "s" in `Required` and "n" not. -/
theorem C4_object_children_and_required (name : String) (args : List BuildArg) (s : Schema)
    (h : Object name args = .ok s) :
    (s.schema.type = .object ∧
      (∀ k, k ∈ mapKeys s.schema.properties ↔ ∃ c, BuildArg.schema c ∈ args ∧ c.name = k) ∧
      (∀ k, k ∈ s.schema.required ↔
        ∃ c, BuildArg.schema c ∈ args ∧ c.name = k ∧ c.required = true)) ∧
    (∃ str o, Str "s" [Required] = .ok str ∧
      Object "o" [.schema str, .schema (Int "n" [])] = .ok o ∧
      o.schema.type = .object ∧ mapKeys o.schema.properties = ["s", "n"] ∧
      "s" ∈ o.schema.required ∧ "n" ∉ o.schema.required) := by
  constructor
  · obtain ⟨ht, -, hk, hr⟩ := foldArgs_objectStep_ok args _ s h
    refine ⟨ht, ?_, ?_⟩
    · intro k
      rw [hk k]
      simp [mapKeys]
    · intro k
      rw [hr k]
      simp
  · exact ⟨{ name := "s", required := true
             schema :=
               { type := .string, title := "s", description := "", properties := []
                 required := [] } },
      { name := "o", required := false
        schema :=
          { type := .object, title := "o", description := ""
            properties :=
              [("s", { type := .string, title := "s", description := "", properties := []
                       required := [] }),
                ("n", { type := .integer, title := "n", description := "", properties := []
                        required := [] })]
            required := ["s"] } },
      rfl, rfl, rfl, rfl, by decide, by decide⟩

/-- Witness of C4: the object of the spec, `Object("o", Str("s", Required()),
Int("n"))`. -/
theorem C4_object_children_and_required_witness :
    Object "o"
        [.schema
            { name := "s", required := true
              schema :=
                { type := .string, title := "s", description := "", properties := []
                  required := [] } },
          .schema (Int "n" [])] =
      .ok
        { name := "o", required := false
          schema :=
            { type := .object, title := "o", description := ""
              properties :=
                [("s", { type := .string, title := "s", description := "", properties := []
                         required := [] }),
                  ("n", { type := .integer, title := "n", description := "", properties := []
                          required := [] })]
              required := ["s"] } } ∧
    ("s" ∈ ["s"] ↔
      ∃ c, BuildArg.schema c ∈
          [BuildArg.schema
              { name := "s", required := true
                schema :=
                  { type := .string, title := "s", description := "", properties := []
                    required := [] } },
            BuildArg.schema (Int "n" [])] ∧
        c.name = "s" ∧ c.required = true) :=
  ⟨rfl,
    (C4_object_children_and_required "o"
      [.schema
          { name := "s", required := true
            schema :=
              { type := .string, title := "s", description := "", properties := []
                required := [] } },
        .schema (Int "n" [])]
      { name := "o", required := false
        schema :=
          { type := .object, title := "o", description := ""
            properties :=
              [("s", { type := .string, title := "s", description := "", properties := []
                       required := [] }),
                ("n", { type := .integer, title := "n", description := "", properties := []
                        required := [] })]
            required := ["s"] } }
      rfl).1.2.2 "s"⟩

/-- Claim C5, evaluated on the code: with the single argument
`Description(d)`, `Object` and `Str` return a node whose description is `d`,
while `Int` returns a node whose description is empty; for `d = "hello"` the
node made by `Int` does not carry the description. -/
theorem C5_description_by_constructor (name d : String) :
    (∃ s, Object name [Description d] = .ok s ∧ s.schema.description = d) ∧
    (∃ s, Str name [Description d] = .ok s ∧ s.schema.description = d) ∧
    (Int name [Description d]).schema.description = "" ∧
    (Int "n" [Description "hello"]).schema.description ≠ "hello" := by
  refine ⟨⟨{ name := name, required := false,
              schema :=
                { type := .object, title := name, description := d, properties := [],
                  required := [] } }, ?_, rfl⟩,
    ⟨{ name := name, required := false,
       schema :=
         { type := .string, title := name, description := d, properties := [],
           required := [] } }, ?_, rfl⟩, rfl, by decide⟩
  · simp [Object, Description, foldArgs, objectStep_description, descriptionOption.apply]
  · simp [Str, Description, foldArgs, Schema.applyBuildOption, BuildArg.BuildArgType,
      BuildArg.asSchemaBuildOption, descriptionOption.apply]

/-- Claim C6, evaluated on the code: for every field name `n` the node
`Int(n, Required())` has its required flag unset, and an object built with it
as only child returns with an empty `Required` list; the object of
`TestStructuredResponse_Fluent` gets the `Required` list "country", "city",
"phone_code", without "population". -/
theorem C6_int_required_is_dropped (n : String) :
    (Int n [Required]).required = false ∧
    (∃ o, Object "response" [.schema (Int n [Required])] = .ok o ∧ o.schema.required = []) ∧
    (∃ country city phone o,
      Str "country" [Required] = .ok country ∧ Str "city" [Required] = .ok city ∧
      Str "phone_code" [Required] = .ok phone ∧
      Object "response"
          [.schema country, .schema city, .schema (Int "population" [Required]),
            .schema phone] = .ok o ∧
      o.schema.required = ["country", "city", "phone_code"] ∧
      "population" ∉ o.schema.required) := by
  refine ⟨rfl,
    ⟨{ name := "response", required := false,
       schema :=
         { type := .object, title := "response", description := "",
           properties :=
             [(n, { type := .integer, title := n, description := "", properties := [],
                    required := [] })]
           required := [] } }, ?_, rfl⟩,
    ⟨{ name := "country", required := true,
       schema :=
         { type := .string, title := "country", description := "", properties := [],
           required := [] } },
      { name := "city", required := true,
        schema :=
          { type := .string, title := "city", description := "", properties := [],
            required := [] } },
      { name := "phone_code", required := true,
        schema :=
          { type := .string, title := "phone_code", description := "", properties := [],
            required := [] } },
      { name := "response", required := false,
        schema :=
          { type := .object, title := "response", description := "",
            properties :=
              [("country", { type := .string, title := "country", description := "",
                             properties := [], required := [] }),
                ("city", { type := .string, title := "city", description := "",
                           properties := [], required := [] }),
                ("population", { type := .integer, title := "population", description := "",
                                 properties := [], required := [] }),
                ("phone_code", { type := .string, title := "phone_code", description := "",
                                 properties := [], required := [] })]
            required := ["country", "city", "phone_code"] } },
      rfl, rfl, rfl, rfl, rfl, by decide⟩⟩
  simp [Object, foldArgs, objectStep_schema, Int, mapSet]

/-- The method `applyBuildOption` panics on an argument tagged "schema". -/
theorem applyBuildOption_schema_tag (s : Schema) (a : BuildArg)
    (h : a.BuildArgType = BuildArgTypeSchema) :
    s.applyBuildOption a = .error (.unsupportedBuildArgType BuildArgTypeSchema) := by
  simp [Schema.applyBuildOption, h, BuildArgTypeSchema, BuildArgTypeOption]

/-- The loop of `Str` panics when some argument is tagged "schema". -/
theorem foldArgs_applyBuildOption_schema_tag (args : List BuildArg)
    (h : ∃ a ∈ args, a.BuildArgType = BuildArgTypeSchema) :
    ∀ s0 : Schema, ∃ p, foldArgs Schema.applyBuildOption s0 args = .error p := by
  induction args with
  | nil => simp at h
  | cons arg rest ih =>
    intro s0
    cases hstep : s0.applyBuildOption arg with
    | error p => exact ⟨p, by simp [foldArgs, hstep]⟩
    | ok s1 =>
      obtain ⟨a, ha, htag⟩ := h
      rcases List.mem_cons.1 ha with rfl | hmem
      · rw [applyBuildOption_schema_tag s0 a htag] at hstep
        cases hstep
      · obtain ⟨p, hp⟩ := ih ⟨a, hmem, htag⟩ s1
        exact ⟨p, by simp [foldArgs, hstep, hp]⟩

/-- Claim C7: for every name and every argument list that holds, at any
position, an argument tagged "schema", `Str(name, args...)` panics and returns
no schema. -/
theorem C7_str_rejects_schema_argument (name : String) (args : List BuildArg)
    (h : ∃ a ∈ args, a.BuildArgType = BuildArgTypeSchema) :
    (∃ p, Str name args = .error p) ∧ ∀ s, Str name args ≠ .ok s := by
  obtain ⟨p, hp⟩ := foldArgs_applyBuildOption_schema_tag args h
    { name := name, required := false,
      schema :=
        { type := .string, title := name, description := "", properties := [], required := [] } }
  refine ⟨⟨p, hp⟩, ?_⟩
  intro s hs
  rw [Str, hp] at hs
  cases hs

/-- Witness of C7: a schema argument that stands after an option. -/
theorem C7_str_rejects_schema_argument_witness :
    (∃ a ∈ [Required, BuildArg.schema (Int "n" [])], a.BuildArgType = BuildArgTypeSchema) ∧
    ((∃ p, Str "s" [Required, BuildArg.schema (Int "n" [])] = .error p) ∧
      ∀ s, Str "s" [Required, BuildArg.schema (Int "n" [])] ≠ .ok s) :=
  ⟨⟨BuildArg.schema (Int "n" []), by simp, rfl⟩,
    C7_str_rejects_schema_argument "s" [Required, BuildArg.schema (Int "n" [])]
      ⟨BuildArg.schema (Int "n" []), by simp, rfl⟩⟩

/-! ## The prompt builder -/

section Facade

variable {σ κ ε Client Resp : Type}

/-- A chain of `WithSchema` calls with schemas of this backend does not panic
and leaves the builder with the schema of the last call. -/
theorem withSchemas_schemas (ss : List Schema) :
    ∀ p : PromptBuilder,
      p.withSchemas (ss.map BuildArg.schema) =
        (none,
          { p with schema :=
              match ss.getLast? with
              | none => p.schema
              | some s => some s.schema }) := by
  induction ss with
  | nil => intro p; rfl
  | cons s rest ih =>
    intro p
    simp only [List.map_cons, PromptBuilder.withSchemas, PromptBuilder.WithSchema,
      BuildArg.asSchema, ih]
    cases rest with
    | nil => rfl
    | cons t r =>
      rw [List.getLast?_cons_cons]
      rcases hl : (t :: r).getLast? with _ | x
      · exact absurd (List.getLast?_eq_none_iff.1 hl) (by simp)
      · rfl

/-- Claim C8: take a fresh prompt builder of a model, pass it the schemas
`s1..sn` of this backend through `WithSchema` in that order, then call
`Execute` with a connection that succeeds.  The chain does not panic, and the
backend (instrumented to log its calls) receives after the connection exactly
one generation call, for the model name and the prompt, with no configuration
when `n = 0` and with the configuration of MIME type "application/json" and
response schema that of `sn` when `n ≥ 1`. -/
theorem C8_execute_uses_last_schema [Inhabited Client] (B : Backend σ κ ε Client Resp)
    (m : Model (List (Call κ Client) × σ) κ ε Client) (prompt : String) (ss : List Schema)
    (ctx : κ) (w : List (Call κ Client) × σ) (client : Client)
    (cell : lazy.LazyWithError (Credentials × (List (Call κ Client) × σ)) κ (Error ε) Client)
    (s1 : Credentials × (List (Call κ Client) × σ))
    (hconn : m.client.Get ctx (m.credentials, w) = (.ok (client, none), cell, s1)) :
    ((m.Prompt prompt).withSchemas (ss.map BuildArg.schema)).1 = none ∧
    (PromptBuilder.Execute (recording B)
        ((m.Prompt prompt).withSchemas (ss.map BuildArg.schema)).2 m ctx w).2.2.1 =
      s1.2.1 ++
        [Call.GenerateContent client ctx m.modelName prompt
          (match ss.getLast? with
            | none => none
            | some s =>
              some { ResponseMIMEType := "application/json", ResponseSchema := some s.schema })] := by
  rw [withSchemas_schemas]
  refine ⟨rfl, ?_⟩
  simp only [PromptBuilder.Execute, hconn, Model.Prompt, recording]
  cases hl : ss.getLast? with
  | none =>
    rcases hg : B.GenerateContent client ctx m.modelName prompt none s1.2.2 with
      ⟨⟨resp, _ | err⟩, w2⟩ <;> simp [hg]
  | some s =>
    rcases hg : B.GenerateContent client ctx m.modelName prompt
        (some { ResponseMIMEType := "application/json", ResponseSchema := some s.schema })
        s1.2.2 with
      ⟨⟨resp, _ | err⟩, w2⟩ <;> simp [hg]

/-- Witness of C8: the sample model, two schemas, the last one wins. -/
theorem C8_execute_uses_last_schema_witness :
    sampleModel.client.Get () (sampleModel.credentials, ([], ())) =
      (.ok (7, none),
        { valueFn := some (Model.newClient (recording sampleBackend)), value := some 7 },
        ({ APIKey := "key" }, ([Call.NewClient () { APIKey := "key" }], ()))) ∧
    (PromptBuilder.Execute (recording sampleBackend)
        ((sampleModel.Prompt "capital of France?").withSchemas
          ([Int "a" [], Int "b" []].map BuildArg.schema)).2 sampleModel () ([], ())).2.2.1 =
      [Call.NewClient () { APIKey := "key" }] ++
        [Call.GenerateContent 7 () "gemini-1.5-flash" "capital of France?"
          (some { ResponseMIMEType := "application/json"
                  ResponseSchema := some (Int "b" []).schema })] :=
  ⟨rfl,
    (C8_execute_uses_last_schema sampleBackend sampleModel "capital of France?"
      [Int "a" [], Int "b" []] () ([], ()) 7
      { valueFn := some (Model.newClient (recording sampleBackend)), value := some 7 }
      ({ APIKey := "key" }, ([Call.NewClient () { APIKey := "key" }], ())) rfl).2⟩

/-- Claim C9: `WithSchema` panics and leaves the builder, its stored schema
included, as it was whenever the argument is not a value of this backend's
schema type; for every schema `s` of this backend it does not panic and
returns the builder it was called on, now holding the backend schema of
`s`. -/
theorem C9_withSchema_checks_type (p : PromptBuilder) :
    (∀ a : BuildArg, (∀ s, a ≠ BuildArg.schema s) →
      p.WithSchema a = (some Panic.expectedSchemaType, p)) ∧
    (∀ s : Schema,
      p.WithSchema (BuildArg.schema s) =
        (none, { simplePrompt := p.simplePrompt, schema := some s.schema })) := by
  constructor
  · intro a ha
    cases a with
    | schema s => exact absurd rfl (ha s)
    | description d => rfl
    | required r => rfl
    | foreign tag => rfl
  · intro s
    rfl

/-- Witness of C9: a foreign value that calls itself a schema is refused, and
the stored schema stays. -/
theorem C9_withSchema_checks_type_witness :
    (∀ s, BuildArg.foreign "schema" ≠ BuildArg.schema s) ∧
    PromptBuilder.WithSchema { simplePrompt := "q", schema := some (Int "a" []).schema }
        (BuildArg.foreign "schema") =
      (some Panic.expectedSchemaType,
        { simplePrompt := "q", schema := some (Int "a" []).schema }) :=
  ⟨fun _ h => BuildArg.noConfusion h,
    (C9_withSchema_checks_type
      { simplePrompt := "q", schema := some (Int "a" []).schema }).1
      (BuildArg.foreign "schema") (fun _ h => BuildArg.noConfusion h)⟩

end Facade

end gemini

end FluentLLM

namespace FluentLLM

namespace gemini

/-! ## The schema builder: arguments of any kind -/

/-- Claim C11: for every name and every argument list, whatever the tags and
the length, `Int(name, args...)` returns (its body has no path to a panic) the
schema `Int(name)` returns: kind Integer, title and name equal to `name`, empty
description, required flag unset.  An argument list with a schema, an option
and a value of unknown tag is evaluated. -/
theorem C11_int_ignores_arguments (name : String) (args : List BuildArg) :
    Int name args = Int name [] ∧
    (Int name args).schema.type = Kind.integer ∧
    (Int name args).schema.title = name ∧
    (Int name args).name = name ∧
    (Int name args).schema.description = "" ∧
    (Int name args).required = false ∧
    Int "n" [BuildArg.schema (Int "m" []), Required, Description "d", BuildArg.foreign "other"] =
      { name := "n", required := false,
        schema :=
          { type := .integer, title := "n", description := "", properties := [],
            required := [] } } :=
  ⟨rfl, rfl, rfl, rfl, rfl, rfl, rfl⟩

/-- The `Required` list the loop of `Object` leaves: the old entries, then
one entry per schema argument marked required, in argument order. -/
theorem foldArgs_objectStep_required (args : List BuildArg) :
    ∀ s0 s : Schema, foldArgs objectStep s0 args = .ok s →
      s.schema.required = s0.schema.required ++ requiredNames args := by
  induction args with
  | nil =>
    intro s0 s h
    simp only [foldArgs, Except.ok.injEq] at h
    subst h
    simp [requiredNames]
  | cons arg rest ih =>
    intro s0 s h
    cases arg with
    | schema c =>
      simp only [foldArgs, objectStep_schema] at h
      rw [ih _ s h]
      cases hc : c.required <;> simp [requiredNames, hc]
    | description d =>
      simp only [foldArgs, objectStep_description] at h
      rw [ih _ s h]
      simp [requiredNames, descriptionOption.apply]
    | required r =>
      simp only [foldArgs, objectStep_required] at h
      rw [ih _ s h]
      simp [requiredNames, requiredOption.apply]
    | foreign tag =>
      obtain ⟨p, hp⟩ := objectStep_foreign s0 tag
      simp [foldArgs, hp] at h

/-- Counterexample to C12: two required children of the same name give a
`Required` list that holds the name twice. -/
theorem C12_required_list_may_repeat :
    ∃ a o, Str "a" [Required] = .ok a ∧
      Object "o" [BuildArg.schema a, BuildArg.schema a] = .ok o ∧
      o.schema.required = ["a", "a"] ∧ ¬ o.schema.required.Nodup :=
  ⟨{ name := "a", required := true,
     schema :=
       { type := .string, title := "a", description := "", properties := [], required := [] } },
    { name := "o", required := false,
      schema :=
        { type := .object, title := "o", description := "",
          properties :=
            [("a", { type := .string, title := "a", description := "", properties := [],
                     required := [] })],
          required := ["a", "a"] } },
    rfl, rfl, rfl, by decide⟩

/-- Claim C12 as amended: whenever `Object(name, args...)` returns a schema,
its `Required` list holds one entry per schema argument whose required flag is
set, in the order of the arguments; so it has no repeated name exactly when
those arguments carry pairwise different names. -/
theorem C12_required_list_one_entry_per_argument (name : String) (args : List BuildArg)
    (s : Schema) (h : Object name args = .ok s) :
    s.schema.required = requiredNames args ∧
    (s.schema.required.Nodup ↔ (requiredNames args).Nodup) := by
  have hr := foldArgs_objectStep_required args _ s h
  simp only [List.nil_append] at hr
  exact ⟨hr, by rw [hr]⟩

/-- Witness of the amended C12: the object of the fluent test without its
integer field. -/
theorem C12_required_list_one_entry_per_argument_witness :
    Object "o" [BuildArg.schema { (Int "a" []) with required := true },
        BuildArg.schema (Int "b" []),
        BuildArg.schema { (Int "c" []) with required := true }] =
      .ok { name := "o", required := false,
            schema :=
              { type := .object, title := "o", description := "",
                properties :=
                  [("a", (Int "a" []).schema), ("b", (Int "b" []).schema),
                    ("c", (Int "c" []).schema)],
                required := ["a", "c"] } } ∧
    (["a", "c"] =
        requiredNames [BuildArg.schema { (Int "a" []) with required := true },
          BuildArg.schema (Int "b" []),
          BuildArg.schema { (Int "c" []) with required := true }] ∧
      (["a", "c"].Nodup ↔
        (requiredNames [BuildArg.schema { (Int "a" []) with required := true },
          BuildArg.schema (Int "b" []),
          BuildArg.schema { (Int "c" []) with required := true }]).Nodup)) :=
  ⟨rfl,
    C12_required_list_one_entry_per_argument "o"
      [BuildArg.schema { (Int "a" []) with required := true },
        BuildArg.schema (Int "b" []),
        BuildArg.schema { (Int "c" []) with required := true }]
      { name := "o", required := false,
        schema :=
          { type := .object, title := "o", description := "",
            properties :=
              [("a", (Int "a" []).schema), ("b", (Int "b" []).schema),
                ("c", (Int "c" []).schema)],
            required := ["a", "c"] } }
      rfl⟩

/-- The arguments `Object` rejects are the values of foreign types. -/
theorem rejectedByObject_iff (a : BuildArg) :
    a.rejectedByObject ↔ ∃ tag, a = BuildArg.foreign tag := by
  cases a with
  | schema c =>
    simp [BuildArg.rejectedByObject, BuildArg.BuildArgType, BuildArg.asSchema,
      BuildArgTypeSchema, BuildArgTypeOption]
  | description d =>
    simp [BuildArg.rejectedByObject, BuildArg.BuildArgType, BuildArg.asSchemaBuildOption,
      BuildArgTypeSchema, BuildArgTypeOption]
  | required r =>
    simp [BuildArg.rejectedByObject, BuildArg.BuildArgType, BuildArg.asSchemaBuildOption,
      BuildArgTypeSchema, BuildArgTypeOption]
  | foreign tag =>
    simp only [BuildArg.rejectedByObject, BuildArg.BuildArgType, BuildArg.asSchema,
      BuildArg.asSchemaBuildOption, BuildArg.foreign.injEq, exists_eq', iff_true, and_true]
    by_cases h1 : tag = BuildArgTypeSchema
    · exact Or.inr (Or.inl h1)
    · by_cases h2 : tag = BuildArgTypeOption
      · exact Or.inr (Or.inr h2)
      · exact Or.inl ⟨h1, h2⟩

/-- The loop of `Object` ends with a panic exactly when it meets a rejected
argument, and with a schema otherwise. -/
theorem foldArgs_objectStep_error_iff (args : List BuildArg) :
    ∀ s0 : Schema,
      ((∃ p, foldArgs objectStep s0 args = .error p) ↔ ∃ a ∈ args, a.rejectedByObject) ∧
      ((∃ s, foldArgs objectStep s0 args = .ok s) ↔ ∀ a ∈ args, ¬ a.rejectedByObject) := by
  induction args with
  | nil =>
    intro s0
    simp [foldArgs]
  | cons arg rest ih =>
    intro s0
    cases arg with
    | schema c =>
      have hno : ¬ (BuildArg.schema c).rejectedByObject := by
        rw [rejectedByObject_iff]; simp
      simp only [foldArgs, objectStep_schema, List.mem_cons, exists_eq_or_imp, forall_eq_or_imp,
        hno, false_or, not_false_eq_true, true_and]
      exact ih _
    | description d =>
      have hno : ¬ (BuildArg.description d).rejectedByObject := by
        rw [rejectedByObject_iff]; simp
      simp only [foldArgs, objectStep_description, List.mem_cons, exists_eq_or_imp,
        forall_eq_or_imp, hno, false_or, not_false_eq_true, true_and]
      exact ih _
    | required r =>
      have hno : ¬ (BuildArg.required r).rejectedByObject := by
        rw [rejectedByObject_iff]; simp
      simp only [foldArgs, objectStep_required, List.mem_cons, exists_eq_or_imp,
        forall_eq_or_imp, hno, false_or, not_false_eq_true, true_and]
      exact ih _
    | foreign tag =>
      have hyes : (BuildArg.foreign tag).rejectedByObject := by
        rw [rejectedByObject_iff]; exact ⟨tag, rfl⟩
      obtain ⟨p, hp⟩ := objectStep_foreign s0 tag
      simp [foldArgs, hp, hyes]

/-- Claim C13: `Object(name, args...)` panics if and only if some argument
has a tag that is neither "schema" nor "option", or is tagged "schema" without
being this backend's schema type, or is tagged "option" without being one of
this backend's option types; and it returns a schema if and only if no
argument is of that kind. -/
theorem C13_object_panics_iff_rejected_argument (name : String) (args : List BuildArg) :
    ((∃ p, Object name args = .error p) ↔ ∃ a ∈ args, a.rejectedByObject) ∧
    ((∃ s, Object name args = .ok s) ↔ ∀ a ∈ args, ¬ a.rejectedByObject) :=
  foldArgs_objectStep_error_iff args _

/-! ## The schema builder: options and the order of the arguments -/

/-- The Go map read after the assignment `m[k] = v`. -/
theorem mapGet_mapSet {V : Type} (m : List (String × V)) (k : String) (v : V) (x : String) :
    mapGet (mapSet m k v) x = if k = x then some v else mapGet m x := by
  induction m with
  | nil => simp [mapSet, mapGet]
  | cons e rest ih =>
    obtain ⟨k', v'⟩ := e
    by_cases hk : k' = k
    · subst hk
      by_cases hx : k' = x <;> simp [mapSet, mapGet, hx]
    · by_cases hx : k' = x
      · subst hx
        simp [mapSet, mapGet, hk, Ne.symm hk]
      · simp [mapSet, mapGet, hk, hx, ih]

/-- The method `applyBuildOption` on a description option. -/
theorem applyBuildOption_description (s : Schema) (d : descriptionOption) :
    s.applyBuildOption (.description d) = .ok (d.apply s) := by
  simp [Schema.applyBuildOption, BuildArg.BuildArgType, BuildArg.asSchemaBuildOption]

/-- The method `applyBuildOption` on a required option. -/
theorem applyBuildOption_required (s : Schema) (r : requiredOption) :
    s.applyBuildOption (.required r) = .ok (r.apply s) := by
  simp [Schema.applyBuildOption, BuildArg.BuildArgType, BuildArg.asSchemaBuildOption]

/-- The method `applyBuildOption` panics on a schema of this backend. -/
theorem applyBuildOption_schema (s c : Schema) :
    ∃ p, s.applyBuildOption (.schema c) = .error p :=
  ⟨_, applyBuildOption_schema_tag s (.schema c) rfl⟩

/-- The method `applyBuildOption` panics on a value of a foreign type. -/
theorem applyBuildOption_foreign (s : Schema) (tag : BuildArgType) :
    ∃ p, s.applyBuildOption (.foreign tag) = .error p := by
  by_cases h : tag = BuildArgTypeOption
  · exact ⟨.notGeminiBuildOption, by
      simp [Schema.applyBuildOption, BuildArg.BuildArgType, BuildArg.asSchemaBuildOption, h]⟩
  · exact ⟨.unsupportedBuildArgType tag, by
      simp [Schema.applyBuildOption, BuildArg.BuildArgType, h]⟩

/-- The last element of a list with a new head. -/
theorem getLast?_cons_getD {α : Type} (x y : α) (l : List α) :
    (x :: l).getLast?.getD y = l.getLast?.getD x := by
  cases l with
  | nil => rfl
  | cons z r =>
    rw [List.getLast?_cons_cons]
    rcases h : (z :: r).getLast? with _ | w
    · exact absurd (List.getLast?_eq_none_iff.1 h) (by simp)
    · rfl

/-- What the loop of `Str` has done to the schema under construction when it
ends without a panic: only the description and the required flag may differ,
and the description is the text of the last description argument. -/
theorem foldArgs_applyBuildOption_ok (args : List BuildArg) :
    ∀ s0 s : Schema, foldArgs Schema.applyBuildOption s0 args = .ok s →
      s.name = s0.name ∧ s.schema.type = s0.schema.type ∧ s.schema.title = s0.schema.title ∧
      s.schema.properties = s0.schema.properties ∧ s.schema.required = s0.schema.required ∧
      s.schema.description = (descriptions args).getLast?.getD s0.schema.description := by
  induction args with
  | nil =>
    intro s0 s h
    simp only [foldArgs, Except.ok.injEq] at h
    subst h
    simp [descriptions]
  | cons arg rest ih =>
    intro s0 s h
    cases arg with
    | schema c =>
      obtain ⟨p, hp⟩ := applyBuildOption_schema s0 c
      simp [foldArgs, hp] at h
    | description d =>
      simp only [foldArgs, applyBuildOption_description] at h
      obtain ⟨h1, h2, h3, h4, h5, h6⟩ := ih _ s h
      refine ⟨h1, h2, h3, h4, h5, ?_⟩
      rw [h6]
      simp only [descriptions, List.filterMap_cons, descriptionOption.apply]
      rw [getLast?_cons_getD]
    | required r =>
      simp only [foldArgs, applyBuildOption_required] at h
      obtain ⟨h1, h2, h3, h4, h5, h6⟩ := ih _ s h
      refine ⟨h1, h2, h3, h4, h5, ?_⟩
      rw [h6]
      simp [descriptions, requiredOption.apply]
    | foreign tag =>
      obtain ⟨p, hp⟩ := applyBuildOption_foreign s0 tag
      simp [foldArgs, hp] at h

/-- The loop of `Str` ends without a panic on a list of options. -/
theorem foldArgs_applyBuildOption_total (args : List BuildArg)
    (h : ∀ a ∈ args, a.asSchemaBuildOption.isSome = true) :
    ∀ s0 : Schema, ∃ s, foldArgs Schema.applyBuildOption s0 args = .ok s := by
  induction args with
  | nil => intro s0; exact ⟨s0, rfl⟩
  | cons arg rest ih =>
    intro s0
    have hrest : ∀ a ∈ rest, a.asSchemaBuildOption.isSome = true :=
      fun a ha => h a (List.mem_cons_of_mem _ ha)
    have harg := h arg (List.mem_cons_self _ _)
    cases arg with
    | schema c => simp [BuildArg.asSchemaBuildOption] at harg
    | description d =>
      obtain ⟨s, hs⟩ := ih hrest (d.apply s0)
      exact ⟨s, by simp [foldArgs, applyBuildOption_description, hs]⟩
    | required r =>
      obtain ⟨s, hs⟩ := ih hrest (r.apply s0)
      exact ⟨s, by simp [foldArgs, applyBuildOption_required, hs]⟩
    | foreign tag => simp [BuildArg.asSchemaBuildOption] at harg

/-- What the loop of `Object` has done to title, description and child
mapping when it ends without a panic: the title is kept, the description is
the text of the last description argument, the child under a name is the last
schema argument of that name. -/
theorem foldArgs_objectStep_fields (args : List BuildArg) :
    ∀ s0 s : Schema, foldArgs objectStep s0 args = .ok s →
      s.schema.title = s0.schema.title ∧
      s.schema.description = (descriptions args).getLast?.getD s0.schema.description ∧
      ∀ k, mapGet s.schema.properties k =
        ((childrenNamed args k).getLast?).or (mapGet s0.schema.properties k) := by
  induction args with
  | nil =>
    intro s0 s h
    simp only [foldArgs, Except.ok.injEq] at h
    subst h
    simp [descriptions, childrenNamed]
  | cons arg rest ih =>
    intro s0 s h
    cases arg with
    | schema c =>
      simp only [foldArgs, objectStep_schema] at h
      obtain ⟨h1, h2, h3⟩ := ih _ s h
      refine ⟨h1, ?_, ?_⟩
      · rw [h2]
        simp [descriptions]
      · intro k
        rw [h3 k]
        simp only [mapGet_mapSet, childrenNamed, List.filterMap_cons]
        by_cases hk : c.name = k
        · simp only [hk, if_true]
          rw [List.getLast?_cons]
          cases (List.filterMap
            (fun a =>
              match a with
              | BuildArg.schema c => if c.name = k then some c.schema else none
              | _ => none) rest).getLast? <;> rfl
        · simp only [hk, if_false]
    | description d =>
      simp only [foldArgs, objectStep_description] at h
      obtain ⟨h1, h2, h3⟩ := ih _ s h
      refine ⟨h1, ?_, ?_⟩
      · rw [h2]
        simp only [descriptions, List.filterMap_cons, descriptionOption.apply]
        rw [getLast?_cons_getD]
      · intro k
        rw [h3 k]
        simp [childrenNamed, descriptionOption.apply]
    | required r =>
      simp only [foldArgs, objectStep_required] at h
      obtain ⟨h1, h2, h3⟩ := ih _ s h
      refine ⟨h1, ?_, ?_⟩
      · rw [h2]
        simp [descriptions, requiredOption.apply]
      · intro k
        rw [h3 k]
        simp [childrenNamed, requiredOption.apply]
    | foreign tag =>
      obtain ⟨p, hp⟩ := objectStep_foreign s0 tag
      simp [foldArgs, hp] at h

/-- An option of this backend is not an argument `Object` rejects. -/
theorem not_rejectedByObject_of_option (a : BuildArg)
    (h : a.asSchemaBuildOption.isSome = true) : ¬ a.rejectedByObject := by
  rw [rejectedByObject_iff]
  rintro ⟨tag, rfl⟩
  simp [BuildArg.asSchemaBuildOption] at h

/-- Claim C14: the description option sets the description and leaves kind,
name, title, required flag, child mapping and `Required` list as they were;
the required option sets the required flag and leaves name and the whole
backend schema (kind, title, description, child mapping, `Required` list) as
they were.  Hence on every argument list made of options `Str` returns a node
of kind String and `Object` a node of kind Object; and two children built by
`Str` from their own options under different names are stored in an object
each as built, whatever the options of the other. -/
theorem C14_options_change_only_their_field :
    (∀ (d : descriptionOption) (s : Schema),
      (d.apply s).schema.description = d.description ∧
      (d.apply s).schema.type = s.schema.type ∧ (d.apply s).name = s.name ∧
      (d.apply s).schema.title = s.schema.title ∧ (d.apply s).required = s.required ∧
      (d.apply s).schema.properties = s.schema.properties ∧
      (d.apply s).schema.required = s.schema.required) ∧
    (∀ (r : requiredOption) (s : Schema),
      (r.apply s).required = true ∧ (r.apply s).name = s.name ∧
      (r.apply s).schema = s.schema) ∧
    (∀ (name : String) (args : List BuildArg),
      (∀ a ∈ args, a.asSchemaBuildOption.isSome = true) →
      (∃ s, Str name args = .ok s ∧ s.schema.type = Kind.string) ∧
      (∃ o, Object name args = .ok o ∧ o.schema.type = Kind.object)) ∧
    (∀ (name n1 n2 : String) (opts1 opts2 : List BuildArg) (c1 c2 : Schema),
      Str n1 opts1 = .ok c1 → Str n2 opts2 = .ok c2 → n1 ≠ n2 →
      ∃ o, Object name [BuildArg.schema c1, BuildArg.schema c2] = .ok o ∧
        mapGet o.schema.properties n1 = some c1.schema ∧
        mapGet o.schema.properties n2 = some c2.schema) := by
  refine ⟨fun d s => ⟨rfl, rfl, rfl, rfl, rfl, rfl, rfl⟩, fun r s => ⟨rfl, rfl, rfl⟩, ?_, ?_⟩
  · intro name args hargs
    constructor
    · obtain ⟨s, hs⟩ := foldArgs_applyBuildOption_total args hargs
        { name := name, required := false,
          schema :=
            { type := .string, title := name, description := "", properties := [],
              required := [] } }
      exact ⟨s, hs, (foldArgs_applyBuildOption_ok args _ s hs).2.1⟩
    · obtain ⟨o, ho⟩ := ((foldArgs_objectStep_error_iff args
        { name := name, required := false,
          schema :=
            { type := .object, title := name, description := "", properties := [],
              required := [] } }).2).2
        (fun a ha => not_rejectedByObject_of_option a (hargs a ha))
      exact ⟨o, ho, (foldArgs_objectStep_ok args _ o ho).1⟩
  · intro name n1 n2 opts1 opts2 c1 c2 h1 h2 hne
    have hn1 : c1.name = n1 := (foldArgs_applyBuildOption_ok opts1 _ c1 h1).1
    have hn2 : c2.name = n2 := (foldArgs_applyBuildOption_ok opts2 _ c2 h2).1
    obtain ⟨o, ho⟩ := ((foldArgs_objectStep_error_iff [BuildArg.schema c1, BuildArg.schema c2]
      { name := name, required := false,
        schema :=
          { type := .object, title := name, description := "", properties := [],
            required := [] } }).2).2
      (by
        intro a ha
        rw [rejectedByObject_iff]
        rintro ⟨tag, rfl⟩
        simp at ha)
    refine ⟨o, ho, ?_, ?_⟩
    · rw [(foldArgs_objectStep_fields _ _ o ho).2.2 n1]
      simp [childrenNamed, hn1, hn2, hne, Ne.symm hne, mapGet]
    · rw [(foldArgs_objectStep_fields _ _ o ho).2.2 n2]
      simp [childrenNamed, hn1, hn2, hne, Ne.symm hne, mapGet]

/-- Witness of C14: `Str` and `Object` on the options `Description("hello")`
and `Required()`. -/
theorem C14_options_change_only_their_field_witness :
    (∀ a ∈ [Description "hello", Required], a.asSchemaBuildOption.isSome = true) ∧
    (∃ s, Str "s" [Description "hello", Required] = .ok s ∧ s.schema.type = Kind.string) ∧
    (∃ o, Object "s" [Description "hello", Required] = .ok o ∧ o.schema.type = Kind.object) :=
  ⟨by simp [Description, Required, BuildArg.asSchemaBuildOption],
    C14_options_change_only_their_field.2.2.1 "s" [Description "hello", Required]
      (by simp [Description, Required, BuildArg.asSchemaBuildOption])⟩

/-- Claim C15: the arguments are folded from left to right.  Whenever
`Str(name, args...)` returns a schema, its description is the text of the last
description argument of the list, empty when there is none; whenever
`Object(name, args...)` returns a schema, the same holds of its description,
and the child stored under a name is the backend schema of the last schema
argument carrying that name (none when there is no such argument). -/
theorem C15_arguments_folded_left_to_right (name : String) (args : List BuildArg)
    (s : Schema) :
    (Str name args = .ok s → s.schema.description = (descriptions args).getLast?.getD "") ∧
    (Object name args = .ok s →
      s.schema.description = (descriptions args).getLast?.getD "" ∧
      ∀ k, mapGet s.schema.properties k = (childrenNamed args k).getLast?) := by
  constructor
  · intro h
    exact (foldArgs_applyBuildOption_ok args _ s h).2.2.2.2.2
  · intro h
    obtain ⟨-, hd, hc⟩ := foldArgs_objectStep_fields args _ s h
    refine ⟨hd, fun k => ?_⟩
    rw [hc k]
    simp [mapGet, Option.or_none]

/-- Witness of C15: an object with two descriptions and two children named
"a"; the later description and the later child are the ones kept. -/
theorem C15_arguments_folded_left_to_right_witness :
    Object "o"
        [Description "first", BuildArg.schema (Int "a" []),
          BuildArg.schema
            { name := "a", required := false,
              schema :=
                { type := .string, title := "a", description := "", properties := [],
                  required := [] } },
          Description "last"] =
      .ok { name := "o", required := false,
            schema :=
              { type := .object, title := "o", description := "last",
                properties :=
                  [("a", { type := .string, title := "a", description := "", properties := [],
                           required := [] })],
                required := [] } } ∧
    ("last" =
        (descriptions
          [Description "first", BuildArg.schema (Int "a" []),
            BuildArg.schema
              { name := "a", required := false,
                schema :=
                  { type := .string, title := "a", description := "", properties := [],
                    required := [] } },
            Description "last"]).getLast?.getD "" ∧
      ∀ k,
        mapGet
            [("a", ({ type := .string, title := "a", description := "", properties := [],
                      required := [] } : GenaiSchema))] k =
          (childrenNamed
            [Description "first", BuildArg.schema (Int "a" []),
              BuildArg.schema
                { name := "a", required := false,
                  schema :=
                    { type := .string, title := "a", description := "", properties := [],
                      required := [] } },
              Description "last"] k).getLast?) :=
  ⟨rfl,
    (C15_arguments_folded_left_to_right "o"
      [Description "first", BuildArg.schema (Int "a" []),
        BuildArg.schema
          { name := "a", required := false,
            schema :=
              { type := .string, title := "a", description := "", properties := [],
                required := [] } },
        Description "last"]
      { name := "o", required := false,
        schema :=
          { type := .object, title := "o", description := "last",
            properties :=
              [("a", { type := .string, title := "a", description := "", properties := [],
                       required := [] })],
            required := [] } }).2 rfl⟩

/-! ## The schema builder: wrapper name and backend title -/

/-- An entry of a map after the assignment `m[k] = v` is an old entry or the
new one. -/
theorem mem_mapSet {V : Type} (m : List (String × V)) (k : String) (v : V) (e : String × V)
    (h : e ∈ mapSet m k v) : e ∈ m ∨ e = (k, v) := by
  induction m with
  | nil =>
    simp only [mapSet, List.mem_singleton] at h
    exact Or.inr h
  | cons e' rest ih =>
    obtain ⟨k', v'⟩ := e'
    by_cases hk : k' = k
    · simp only [mapSet, hk, if_true, List.mem_cons] at h
      rcases h with h | h
      · exact Or.inr h
      · exact Or.inl (List.mem_cons_of_mem _ h)
    · simp only [mapSet, hk, if_false, List.mem_cons] at h
      rcases h with h | h
      · exact Or.inl (h ▸ List.mem_cons_self _ _)
      · rcases ih h with h' | h'
        · exact Or.inl (List.mem_cons_of_mem _ h')
        · exact Or.inr h'

/-- The loop of `Object` keeps the child mapping keyed by title when every
schema argument has its name equal to its title. -/
theorem foldArgs_objectStep_keys_are_titles (args : List BuildArg) :
    ∀ s0 s : Schema, foldArgs objectStep s0 args = .ok s →
      (∀ c, BuildArg.schema c ∈ args → c.name = c.schema.title) →
      (∀ e ∈ s0.schema.properties, e.1 = e.2.title) →
      ∀ e ∈ s.schema.properties, e.1 = e.2.title := by
  induction args with
  | nil =>
    intro s0 s h _ h0
    simp only [foldArgs, Except.ok.injEq] at h
    subst h
    exact h0
  | cons arg rest ih =>
    intro s0 s h hargs h0
    have hrest : ∀ c, BuildArg.schema c ∈ rest → c.name = c.schema.title :=
      fun c hc => hargs c (List.mem_cons_of_mem _ hc)
    cases arg with
    | schema c =>
      simp only [foldArgs, objectStep_schema] at h
      refine ih _ s h hrest ?_
      intro e he
      rcases mem_mapSet _ _ _ e he with h' | h'
      · exact h0 e h'
      · subst h'
        exact hargs c (List.mem_cons_self _ _)
    | description d =>
      simp only [foldArgs, objectStep_description] at h
      exact ih _ s h hrest h0
    | required r =>
      simp only [foldArgs, objectStep_required] at h
      exact ih _ s h hrest h0
    | foreign tag =>
      obtain ⟨p, hp⟩ := objectStep_foreign s0 tag
      simp [foldArgs, hp] at h

/-- Claim C19: every schema returned by `Object`, `Str`, `Int` and, on
success, `FromJSONSchema` has its wrapper name equal to the title of the
backend schema it wraps; the description and the required option keep this
equality; so in an object built from children that have it, every child is
stored under its own title. -/
theorem C19_name_equals_title :
    (∀ (name : String) (args : List BuildArg) (s : Schema),
      Object name args = .ok s → s.name = s.schema.title) ∧
    (∀ (name : String) (args : List BuildArg) (s : Schema),
      Str name args = .ok s → s.name = s.schema.title) ∧
    (∀ (name : String) (args : List BuildArg), (Int name args).name = (Int name args).schema.title) ∧
    (∀ (β ε : Type) (unmarshal : β → GenaiSchema × Option ε) (jsonSchema : β) (s : Schema),
      (FromJSONSchema unmarshal jsonSchema).1 = some s → s.name = s.schema.title) ∧
    (∀ (d : descriptionOption) (s : Schema),
      s.name = s.schema.title → (d.apply s).name = (d.apply s).schema.title) ∧
    (∀ (r : requiredOption) (s : Schema),
      s.name = s.schema.title → (r.apply s).name = (r.apply s).schema.title) ∧
    (∀ (name : String) (args : List BuildArg) (o : Schema),
      (∀ c, BuildArg.schema c ∈ args → c.name = c.schema.title) →
      Object name args = .ok o →
      ∀ e ∈ o.schema.properties, e.1 = e.2.title) := by
  refine ⟨?_, ?_, fun _ _ => rfl, ?_, fun _ _ h => h, fun _ _ h => h, ?_⟩
  · intro name args s h
    rw [(foldArgs_objectStep_ok args _ s h).2.1, (foldArgs_objectStep_fields args _ s h).1]
  · intro name args s h
    obtain ⟨h1, -, h3, -⟩ := foldArgs_applyBuildOption_ok args _ s h
    rw [h1, h3]
  · intro β ε unmarshal jsonSchema s h
    unfold FromJSONSchema at h
    rcases hu : unmarshal jsonSchema with ⟨schema, _ | err⟩
    · simp only [hu, Option.some.injEq] at h
      subst h
      rfl
    · simp [hu] at h
  · intro name args o hargs h
    exact foldArgs_objectStep_keys_are_titles args _ o h hargs (by simp)

/-- Witness of C19: the children of the object of the spec are stored under
their titles. -/
theorem C19_name_equals_title_witness :
    (∀ c, BuildArg.schema c ∈
        [BuildArg.schema { (Int "s" []) with required := true }, BuildArg.schema (Int "n" [])] →
      c.name = c.schema.title) ∧
    Object "o"
        [BuildArg.schema { (Int "s" []) with required := true }, BuildArg.schema (Int "n" [])] =
      .ok { name := "o", required := false,
            schema :=
              { type := .object, title := "o", description := "",
                properties := [("s", (Int "s" []).schema), ("n", (Int "n" []).schema)],
                required := ["s"] } } ∧
    ∀ e ∈ [("s", (Int "s" []).schema), ("n", (Int "n" []).schema)], e.1 = e.2.title :=
  ⟨by
      intro c hc
      simp only [List.mem_cons, BuildArg.schema.injEq, List.mem_singleton, List.not_mem_nil,
        or_false] at hc
      rcases hc with rfl | rfl <;> rfl,
    rfl,
    C19_name_equals_title.2.2.2.2.2.2 "o"
      [BuildArg.schema { (Int "s" []) with required := true }, BuildArg.schema (Int "n" [])]
      { name := "o", required := false,
        schema :=
          { type := .object, title := "o", description := "",
            properties := [("s", (Int "s" []).schema), ("n", (Int "n" []).schema)],
            required := ["s"] } }
      (by
        intro c hc
        simp only [List.mem_cons, BuildArg.schema.injEq, List.mem_singleton, List.not_mem_nil,
          or_false] at hc
        rcases hc with rfl | rfl <;> rfl)
      rfl⟩

/-! ## The model and its connection cell -/

section Connection

variable {σ κ ε Client Resp : Type}

/-- The method `newClient` over a recording backend leaves the credentials as
they are and appends one `NewClient` call, for the API key of the model, to
the log. -/
theorem newClient_recording [Inhabited Client] (B : Backend σ κ ε Client Resp) (ctx : κ)
    (creds : Credentials) (w : List (Call κ Client) × σ) :
    (Model.newClient (recording B) ctx (creds, w)).2 =
      (creds, (w.1 ++ [Call.NewClient ctx { APIKey := creds.APIKey }],
        (B.NewClient ctx { APIKey := creds.APIKey } w.2).2)) := by
  rcases hb : B.NewClient ctx { APIKey := creds.APIKey } w.2 with ⟨⟨client, _ | err⟩, w2⟩ <;>
    simp [Model.newClient, recording, hb]

/-- A call of `Execute` on a model whose cell holds a client: the model is left
as it is and the log gains exactly one `GenerateContent` call, made with that
client, whatever the call returns. -/
theorem execute_cached [Inhabited Client] (B : Backend σ κ ε Client Resp)
    (m : Model (List (Call κ Client) × σ) κ ε Client) (p : PromptBuilder) (ctx : κ)
    (w : List (Call κ Client) × σ) (client : Client) (h : m.client.value = some client) :
    (PromptBuilder.Execute (recording B) p m ctx w).2.1 = m ∧
    (PromptBuilder.Execute (recording B) p m ctx w).2.2.1 =
      w.1 ++
        [Call.GenerateContent client ctx m.modelName p.simplePrompt
          (p.schema.map fun schema =>
            { ResponseMIMEType := "application/json", ResponseSchema := some schema })] := by
  have hg := lazy.LazyWithError.Get_of_value m.client client h ctx (m.credentials, w)
  simp only [PromptBuilder.Execute, hg, recording]
  cases hs : p.schema with
  | none =>
    rcases hb : B.GenerateContent client ctx m.modelName p.simplePrompt none w.2 with
      ⟨⟨resp, _ | err⟩, w2⟩ <;> simp [hb]
  | some schema =>
    rcases hb : B.GenerateContent client ctx m.modelName p.simplePrompt
        (some { ResponseMIMEType := "application/json", ResponseSchema := some schema })
        w.2 with
      ⟨⟨resp, _ | err⟩, w2⟩ <;> simp [hb]

/-- The cell's `Get` on a model whose cell holds no client but the producer
`newClient`, when the producer fails. -/
theorem get_uncached_failure [Inhabited Client] (B : Backend σ κ ε Client Resp)
    (m : Model (List (Call κ Client) × σ) κ ε Client) (ctx : κ) (w : List (Call κ Client) × σ)
    (hfn : m.client.valueFn = some (Model.newClient (recording B)))
    (hval : m.client.value = none) (x : Client) (e : Error ε)
    (s1 : Credentials × (List (Call κ Client) × σ))
    (hprod : Model.newClient (recording B) ctx (m.credentials, w) = ((x, some e), s1)) :
    m.client.Get ctx (m.credentials, w) = (.ok (default, some e), m.client, s1) := by
  simp only [lazy.LazyWithError.Get, hval, hfn, hprod]

/-- The cell's `Get` on a model whose cell holds no client but the producer
`newClient`, when the producer succeeds. -/
theorem get_uncached_success [Inhabited Client] (B : Backend σ κ ε Client Resp)
    (m : Model (List (Call κ Client) × σ) κ ε Client) (ctx : κ) (w : List (Call κ Client) × σ)
    (hfn : m.client.valueFn = some (Model.newClient (recording B)))
    (hval : m.client.value = none) (client : Client)
    (s1 : Credentials × (List (Call κ Client) × σ))
    (hprod : Model.newClient (recording B) ctx (m.credentials, w) = ((client, none), s1)) :
    m.client.Get ctx (m.credentials, w) =
      (.ok (client, none), { m.client with value := some client }, s1) := by
  simp only [lazy.LazyWithError.Get, hval, hfn, hprod]

/-- A call of `Execute` whose connection step gives a client: the model keeps
the cell that step left, and the log gains exactly one `GenerateContent` call
after that step, whatever the call returns. -/
theorem execute_of_connected [Inhabited Client] (B : Backend σ κ ε Client Resp)
    (m : Model (List (Call κ Client) × σ) κ ε Client) (p : PromptBuilder) (ctx : κ)
    (w : List (Call κ Client) × σ) (client : Client)
    (cell : lazy.LazyWithError (Credentials × (List (Call κ Client) × σ)) κ (Error ε) Client)
    (s1 : Credentials × (List (Call κ Client) × σ))
    (hget : m.client.Get ctx (m.credentials, w) = (.ok (client, none), cell, s1)) :
    (PromptBuilder.Execute (recording B) p m ctx w).2.1 =
      { m with client := cell, credentials := s1.1 } ∧
    (PromptBuilder.Execute (recording B) p m ctx w).2.2.1 =
      s1.2.1 ++
        [Call.GenerateContent client ctx m.modelName p.simplePrompt
          (p.schema.map fun schema =>
            { ResponseMIMEType := "application/json", ResponseSchema := some schema })] := by
  simp only [PromptBuilder.Execute, hget, recording]
  cases hs : p.schema with
  | none =>
    rcases hb : B.GenerateContent client ctx m.modelName p.simplePrompt none s1.2.2 with
      ⟨⟨resp, _ | err⟩, w2⟩ <;> simp [hb]
  | some schema =>
    rcases hb : B.GenerateContent client ctx m.modelName p.simplePrompt
        (some { ResponseMIMEType := "application/json", ResponseSchema := some schema })
        s1.2.2 with
      ⟨⟨resp, _ | err⟩, w2⟩ <;> simp [hb]

/-- Claim C16: take a model whose connection cell holds no client and has
`newClient` (over a backend that logs its calls) as producer.  If the producer
fails with `e` during `Execute`, then `Execute` returns `e` with no response,
the model, its cell included, is left as it was, and the log gains the
`NewClient` call only, no generation call.  Every `Execute` on a model in that
state starts by calling `NewClient`.  If the producer succeeds, the cell holds
the client afterwards.  And on a model whose cell holds a client, every
`Execute` leaves the model as it is and adds to the log exactly one generation
call made with that client and no `NewClient` call, whether generation fails
or not. -/
theorem C16_connection_failure_is_retried [Inhabited Client] (B : Backend σ κ ε Client Resp)
    (m : Model (List (Call κ Client) × σ) κ ε Client) (p : PromptBuilder) (ctx : κ)
    (w : List (Call κ Client) × σ) :
    (m.client.valueFn = some (Model.newClient (recording B)) → m.client.value = none →
      (∀ (x : Client) (e : Error ε) (s1 : Credentials × (List (Call κ Client) × σ)),
        Model.newClient (recording B) ctx (m.credentials, w) = ((x, some e), s1) →
        PromptBuilder.Execute (recording B) p m ctx w = (.ok (none, some e), m, s1.2) ∧
        s1.2.1 = w.1 ++ [Call.NewClient ctx { APIKey := m.credentials.APIKey }]) ∧
      (∃ rest, (PromptBuilder.Execute (recording B) p m ctx w).2.2.1 =
        w.1 ++ Call.NewClient ctx { APIKey := m.credentials.APIKey } :: rest) ∧
      (∀ (client : Client) (s1 : Credentials × (List (Call κ Client) × σ)),
        Model.newClient (recording B) ctx (m.credentials, w) = ((client, none), s1) →
        (PromptBuilder.Execute (recording B) p m ctx w).2.1.client.value = some client)) ∧
    (∀ client : Client, m.client.value = some client →
      (PromptBuilder.Execute (recording B) p m ctx w).2.1 = m ∧
      (PromptBuilder.Execute (recording B) p m ctx w).2.2.1 =
        w.1 ++
          [Call.GenerateContent client ctx m.modelName p.simplePrompt
            (p.schema.map fun schema =>
              { ResponseMIMEType := "application/json", ResponseSchema := some schema })]) := by
  refine ⟨fun hfn hval => ⟨?_, ?_, ?_⟩, fun client h => execute_cached B m p ctx w client h⟩
  · intro x e s1 hprod
    have hs := newClient_recording B ctx m.credentials w
    rw [hprod] at hs
    simp only at hs
    subst hs
    refine ⟨?_, rfl⟩
    simp only [PromptBuilder.Execute, get_uncached_failure B m ctx w hfn hval x e _ hprod]
  · have hs := newClient_recording B ctx m.credentials w
    rcases hprod : Model.newClient (recording B) ctx (m.credentials, w) with
      ⟨⟨client, _ | err⟩, s1⟩
    · rw [hprod] at hs
      simp only at hs
      subst hs
      refine ⟨[Call.GenerateContent client ctx m.modelName p.simplePrompt
        (p.schema.map fun schema =>
          { ResponseMIMEType := "application/json", ResponseSchema := some schema })], ?_⟩
      rw [(execute_of_connected B m p ctx w client _ _
        (get_uncached_success B m ctx w hfn hval client _ hprod)).2]
      simp only [List.append_assoc, List.singleton_append]
    · rw [hprod] at hs
      simp only at hs
      subst hs
      exact ⟨[], by
        simp only [PromptBuilder.Execute,
          get_uncached_failure B m ctx w hfn hval client err _ hprod]⟩
  · intro client s1 hprod
    rw [(execute_of_connected B m p ctx w client _ _
      (get_uncached_success B m ctx w hfn hval client _ hprod)).1]

/-- Witness of C16: the sample backend refuses the empty API key; `Execute`
returns the error, leaves the model as it was and logs the one `NewClient`
call. -/
theorem C16_connection_failure_is_retried_witness :
    sampleModelEmptyKey.client.valueFn = some (Model.newClient (recording sampleBackend)) ∧
    sampleModelEmptyKey.client.value = none ∧
    Model.newClient (recording sampleBackend) () (sampleModelEmptyKey.credentials, ([], ())) =
      ((0, some { msg := "failed to create genai client", cause := "no key" }),
        ({ APIKey := "" }, ([Call.NewClient () { APIKey := "" }], ()))) ∧
    PromptBuilder.Execute (recording sampleBackend) (sampleModelEmptyKey.Prompt "q")
        sampleModelEmptyKey () ([], ()) =
      (.ok (none, some { msg := "failed to create genai client", cause := "no key" }),
        sampleModelEmptyKey, ([Call.NewClient () { APIKey := "" }], ())) :=
  ⟨rfl, rfl, rfl,
    ((((C16_connection_failure_is_retried sampleBackend sampleModelEmptyKey
      (sampleModelEmptyKey.Prompt "q") () ([], ())).1 rfl rfl).1 0
      { msg := "failed to create genai client", cause := "no key" }
      ({ APIKey := "" }, ([Call.NewClient () { APIKey := "" }], ())) rfl).1)⟩

/-- Claim C17, evaluated on the code: `NewModel(name, c)` with the empty API
key, like `NewModel(name)` without options, leaves the connection cell without
a producer, and the first `Execute` on that model panics on the call of the nil
producer; for every credentials value with a non-empty key the producer is
installed. -/
theorem C17_empty_key_installs_no_producer [Inhabited Client] (B : Backend σ κ ε Client Resp)
    (name prompt : String) (ctx : κ) (w : σ) :
    (NewModel B name [{ APIKey := "" }]).client.valueFn.isNone = true ∧
    (NewModel B name []).client.valueFn.isNone = true ∧
    (PromptBuilder.Execute B ((NewModel B name [{ APIKey := "" }]).Prompt prompt)
        (NewModel B name [{ APIKey := "" }]) ctx w).1 = .error Panic.nilFunc ∧
    (∀ c : Credentials, c.APIKey ≠ "" →
      (NewModel B name [c]).client = lazy.NewWithError (Model.newClient B)) := by
  refine ⟨rfl, rfl, rfl, ?_⟩
  intro c hc
  simp [NewModel, Credentials.ApplyToModel, Model.setCredentials, hc]

/-- The credentials and the name of the model `NewModel` builds from a list
of credentials options. -/
theorem foldl_ApplyToModel [Inhabited Client] (B : Backend σ κ ε Client Resp)
    (opts : List Credentials) :
    ∀ m0 : Model σ κ ε Client,
      (opts.foldl (fun model opt => opt.ApplyToModel B model) m0).modelName = m0.modelName ∧
      (opts.foldl (fun model opt => opt.ApplyToModel B model) m0).credentials =
        opts.getLast?.getD m0.credentials := by
  induction opts with
  | nil => intro m0; exact ⟨rfl, rfl⟩
  | cons c rest ih =>
    intro m0
    obtain ⟨h1, h2⟩ := ih (c.ApplyToModel B m0)
    have hname : (c.ApplyToModel B m0).modelName = m0.modelName := by
      by_cases h : c.APIKey = m0.credentials.APIKey <;>
        simp [Credentials.ApplyToModel, Model.setCredentials, h]
    have hcred : (c.ApplyToModel B m0).credentials = c := by
      simp [Credentials.ApplyToModel, Model.setCredentials]
    refine ⟨?_, ?_⟩
    · rw [List.foldl_cons, h1, hname]
    · rw [List.foldl_cons, h2, getLast?_cons_getD, hcred]

/-- Claim C18: applying credentials `c` to a model stores `c` as the
credentials of the model and keeps the model name; the connection cell becomes
a fresh cell without a value when the API key of `c` differs from the key
stored before, and is kept as it is, cached client included, when the keys are
equal.  Hence `NewModel` keeps the name it is given and stores the last of
the credentials options it is given. -/
theorem C18_apply_credentials [Inhabited Client] (B : Backend σ κ ε Client Resp)
    (m : Model σ κ ε Client) (c : Credentials) :
    (c.ApplyToModel B m).credentials = c ∧
    (c.ApplyToModel B m).modelName = m.modelName ∧
    (c.APIKey ≠ m.credentials.APIKey →
      (c.ApplyToModel B m).client = lazy.NewWithError (Model.newClient B) ∧
      (c.ApplyToModel B m).client.value = none) ∧
    (c.APIKey = m.credentials.APIKey → (c.ApplyToModel B m).client = m.client) ∧
    (∀ (name : String) (opts : List Credentials),
      (NewModel B name opts : Model σ κ ε Client).modelName = name ∧
      (NewModel B name opts : Model σ κ ε Client).credentials =
        opts.getLast?.getD { APIKey := "" }) := by
  refine ⟨?_, ?_, ?_, ?_, ?_⟩
  · simp [Credentials.ApplyToModel, Model.setCredentials]
  · by_cases h : c.APIKey = m.credentials.APIKey <;>
      simp [Credentials.ApplyToModel, Model.setCredentials, h]
  · intro h
    simp [Credentials.ApplyToModel, Model.setCredentials, h, lazy.NewWithError]
  · intro h
    simp [Credentials.ApplyToModel, Model.setCredentials, h]
  · intro name opts
    exact foldl_ApplyToModel B opts _

/-- Witness of C18: new credentials with the key the sample model already has
keep its cell; credentials with another key replace it. -/
theorem C18_apply_credentials_witness :
    ({ APIKey := "key" } : Credentials).APIKey = sampleModel.credentials.APIKey ∧
    (Credentials.ApplyToModel (recording sampleBackend) { APIKey := "key" } sampleModel).client =
      sampleModel.client ∧
    ({ APIKey := "other" } : Credentials).APIKey ≠ sampleModel.credentials.APIKey ∧
    (Credentials.ApplyToModel (recording sampleBackend) { APIKey := "other" } sampleModel).client =
      lazy.NewWithError (Model.newClient (recording sampleBackend)) :=
  ⟨rfl,
    (C18_apply_credentials (recording sampleBackend) sampleModel { APIKey := "key" }).2.2.2.1 rfl,
    by decide,
    ((C18_apply_credentials (recording sampleBackend) sampleModel
      { APIKey := "other" }).2.2.1 (by decide)).1⟩

end Connection

end gemini

end FluentLLM
